import Mathlib

/-!
Verification of the tonic-ear session generator (`docs/assets/local-session.js`)
and sample mapper (`web/assets/app.js`).

Modelling conventions:
* JavaScript numbers are modelled as real numbers (`ℝ`) where the code does
  arithmetic on them (frequencies, cents, visual-hint heights) and as `ℕ`/`ℤ`
  where the code only ever holds integers (degrees, semitones, indices).
  `NaN`/`Infinity` inputs lie outside this model; the `Number.isFinite` guards
  therefore reduce to sign conditions.
* `Math.random()` draws are modelled by a stream `g : ℕ → ℕ` of arbitrary
  naturals; `Math.floor(Math.random() * n)` becomes `g 0 % n`, which ranges
  over exactly the same values `0 .. n-1`.
* Thrown exceptions are modelled with `Except`.
-/

namespace TonicEar

/-- A stream of random draws: position `n` holds the `n`-th draw. -/
abbrev RandStream := ℕ → ℕ

/-- Drop the first draw of the stream (it has been consumed). -/
def shiftStream (g : RandStream) : RandStream := fun n => g (n + 1)

/-- Errors thrown by the session generator (`throw new Error(...)` sites in
`local-session.js`), one constructor per throw site. -/
inductive GenError where
  | unknownModule (id : String)
  | unknownGender (gender : String)
  | unknownKey (key : String)
  | unknownTemperament (t : String)
  | unknownInstrument (i : String)
  | unknownLevel (level : String)
  | unsupportedTemperament (t : String)
  | unsupportedQuestionType (t : String)
  | emptyChoice
  | sampleTooMany (count len : ℕ)
  deriving DecidableEq, Repr

/-- `randomChoice(values)`: pick `values[Math.floor(Math.random()*values.length)]`,
throwing on an empty list. -/
def randomChoice {α : Type} (values : List α) (g : RandStream) :
    Except GenError (α × RandStream) :=
  if h : values.length = 0 then
    .error .emptyChoice
  else
    .ok (values.get ⟨g 0 % values.length, Nat.mod_lt _ (Nat.pos_of_ne_zero h)⟩,
      shiftStream g)

/-- The destructuring swap `[values[i], values[j]] = [values[j], values[i]]`.
Out-of-range indices leave the list unchanged (they cannot occur in the
shuffle loop). -/
def swapL {α : Type} (l : List α) (i j : ℕ) : List α :=
  match l[i]?, l[j]? with
  | some a, some b => (l.set i b).set j a
  | _, _ => l

/-- The Fisher–Yates loop of `shuffleInPlace`, counting the loop variable
`index` down; the argument is the current value of `index`. -/
def shuffleAux {α : Type} : List α → RandStream → ℕ → List α × RandStream
  | l, g, 0 => (l, g)
  | l, g, i + 1 => shuffleAux (swapL l (i + 1) (g 0 % (i + 2))) (shiftStream g) i

/-- `shuffleInPlace(values)`: Fisher–Yates shuffle from `values.length - 1`
down to `1`. -/
def shuffleInPlace {α : Type} (l : List α) (g : RandStream) : List α × RandStream :=
  shuffleAux l g (l.length - 1)

/-- `sampleWithoutReplacement(values, count)`: shuffle a copy and take the
first `count` elements, throwing when `count > values.length`. -/
def sampleWithoutReplacement {α : Type} (values : List α) (count : ℕ)
    (g : RandStream) : Except GenError (List α × RandStream) :=
  if count > values.length then
    .error (.sampleTooMany count values.length)
  else
    let s := shuffleInPlace values g
    .ok (s.1.take count, s.2)


/-! ## Static taxonomy and catalogs (`local-session.js`) -/

/-- `QUESTION_COUNT` -/
def QUESTION_COUNT : ℕ := 20

/-- `EQUAL_TEMPERAMENT` -/
def EQUAL_TEMPERAMENT : String := "equal_temperament"

/-- `PITCH_MODULE_LEVELS` -/
def PITCH_MODULE_LEVELS : List String := ["L1", "L2", "L3", "L4", "L5", "L6"]

/-- `KEY_OPTIONS` (id, label). -/
def KEY_OPTIONS : List (String × String) :=
  [("C", "1=C"), ("C#/Db", "1=C#/Db"), ("D", "1=D"), ("D#/Eb", "1=D#/Eb"),
   ("E", "1=E"), ("F", "1=F"), ("F#/Gb", "1=F#/Gb"), ("G", "1=G"),
   ("G#/Ab", "1=G#/Ab"), ("A", "1=A"), ("A#/Bb", "1=A#/Bb"), ("B", "1=B")]

/-- `KEY_OFFSETS.get(keyId)`: the 0-based index of a key id in `KEY_OPTIONS`. -/
def keyOffset (keyId : String) : Option ℕ :=
  KEY_OPTIONS.findIdx? (fun e => e.1 = keyId)

/-- `MALE_DO_C` -/
noncomputable def MALE_DO_C : ℝ := 130.8

/-- `FEMALE_DO_C` -/
noncomputable def FEMALE_DO_C : ℝ := 261.6

/-- `GENDER_BASE_DO` as an association list. -/
noncomputable def GENDER_BASE_DO : List (String × ℝ) :=
  [("male", MALE_DO_C), ("female", FEMALE_DO_C)]

/-- `Object.hasOwn(GENDER_BASE_DO, gender)` -/
def genderKnown (gender : String) : Bool :=
  gender = "male" ∨ gender = "female"

/-- `INSTRUMENT_OPTIONS` ids. -/
def INSTRUMENT_OPTIONS : List (String × String) :=
  [("piano", "Piano"), ("guitar", "Guitar")]

/-- A `CHROMA_NOTES` entry. Missing `enharmonicDegree`/`enharmonicAccidental`
are `none`. -/
structure SDNote where
  token : String
  display : String
  degree : ℕ
  accidental : String
  semitone : ℤ
  enharmonicDegree : Option ℕ := none
  enharmonicAccidental : Option String := none
  deriving DecidableEq, Repr

/-- `CHROMA_NOTES`: the fixed 12-tone chromatic taxonomy. -/
def CHROMA_NOTES : List SDNote :=
  [⟨"1", "1", 1, "natural", 0, none, none⟩,
   ⟨"#1", "#1/b2", 1, "sharp", 1, some 2, some "flat"⟩,
   ⟨"2", "2", 2, "natural", 2, none, none⟩,
   ⟨"#2", "#2/b3", 2, "sharp", 3, some 3, some "flat"⟩,
   ⟨"3", "3", 3, "natural", 4, none, none⟩,
   ⟨"4", "4", 4, "natural", 5, none, none⟩,
   ⟨"#4", "#4/b5", 4, "sharp", 6, some 5, some "flat"⟩,
   ⟨"5", "5", 5, "natural", 7, none, none⟩,
   ⟨"#5", "#5/b6", 5, "sharp", 8, some 6, some "flat"⟩,
   ⟨"6", "6", 6, "natural", 9, none, none⟩,
   ⟨"#6", "#6/b7", 6, "sharp", 10, some 7, some "flat"⟩,
   ⟨"7", "7", 7, "natural", 11, none, none⟩]

/-- `NOTE_BY_TOKEN.get(token)` (tokens are unique, so first match). -/
def noteByToken (token : String) : Option SDNote :=
  CHROMA_NOTES.find? (fun n => n.token = token)

/-- A `DIFFICULTY_LEVELS` entry. -/
structure LevelDef where
  id : String
  label : String
  tokens : List String
  display : String
  deriving DecidableEq, Repr

/-- `DIFFICULTY_LEVELS` as an association list keyed by level name. -/
def DIFFICULTY_LEVELS : List (String × LevelDef) :=
  [("L1", ⟨"L1_TRIAD", "Triad Notes", ["1", "3", "5"], "1,3,5"⟩),
   ("L2", ⟨"L2_PENTA", "Pentatonic Expansion", ["1", "2", "3", "5", "6"],
      "1,2,3,5,6"⟩),
   ("L3", ⟨"L3_HEPTA", "Heptatonic", ["1", "2", "3", "4", "5", "6", "7"],
      "1,2,3,4,5,6,7"⟩),
   ("L4", ⟨"L4_CHROMA", "Chromatic",
      ["1", "#1", "2", "#2", "3", "4", "#4", "5", "#5", "6", "#6", "7"],
      "1,#1/b2,2,#2/b3,3,4,#4/b5,5,#5/b6,6,#6/b7,7"⟩),
   ("L5", ⟨"L5_WHOLE_TONE", "Whole-Tone Proximity",
      ["1", "#1", "2", "#2", "3", "4", "#4", "5", "#5", "6", "#6", "7"],
      "L5 uses close-note drills (1 whole tone / 2 semitones)"⟩),
   ("L6", ⟨"L6_SEMITONE", "Semitone Proximity",
      ["1", "#1", "2", "#2", "3", "4", "#4", "5", "#5", "6", "#6", "7"],
      "L6 uses closest-note drills (1 semitone)"⟩)]

/-- Lookup in `DIFFICULTY_LEVELS`. -/
def difficultyLevel (level : String) : Option LevelDef :=
  (DIFFICULTY_LEVELS.find? (fun e => e.1 = level)).map (·.2)

/-- A `MODULES` entry. -/
structure Module where
  id : String
  title : String
  questionType : String
  level : String
  recommendedOrder : ℕ
  deriving DecidableEq, Repr

/-- One pass of the `buildModules` loops: modules of one question type over a
list of levels, with ids `prefixStr ++ level` and consecutive orders. -/
def buildModuleGroup (idStem : String) (titleOf : String → String)
    (questionType : String) (levels : List String) (startOrder : ℕ) :
    List Module :=
  levels.mapIdx (fun i level =>
    ⟨idStem ++ level, titleOf level, questionType, level, startOrder + i⟩)

/-- `buildModules()`: the full static module catalog. -/
def MODULES : List Module :=
  buildModuleGroup "M2-" (fun l => "Two Notes: Higher or Lower (" ++ l ++ ")")
      "compare_two" PITCH_MODULE_LEVELS 1 ++
  buildModuleGroup "M3-" (fun l => "Three Notes: Sort Low to High (" ++ l ++ ")")
      "sort_three" PITCH_MODULE_LEVELS 7 ++
  buildModuleGroup "M4-" (fun l => "Four Notes: Sort Low to High (" ++ l ++ ")")
      "sort_four" PITCH_MODULE_LEVELS 13 ++
  buildModuleGroup "MI-" (fun l => "Two Notes: Scale-Step Distance (" ++ l ++ ")")
      "interval_scale" ["L1", "L2", "L3"] 19 ++
  buildModuleGroup "MS-" (fun l => "Single Note Guess (" ++ l ++ ")")
      "single_note" ["L1", "L2", "L3", "L4"] 22

/-- `MODULE_MAP.get(moduleId)` (ids are unique, so first match). -/
def moduleById (moduleId : String) : Option Module :=
  MODULES.find? (fun m => m.id = moduleId)

/-- `roundTo(value, digits)`: `Math.round(value * 10^digits) / 10^digits`.
`Math.round` rounds half-up toward `+∞`, exactly as Mathlib's `round`. -/
noncomputable def roundTo (value : ℝ) (digits : ℕ) : ℝ :=
  (round (value * 10 ^ digits) : ℤ) / 10 ^ digits

/-- `calculateDoFrequency(gender, keyId)`:
`baseDo * 2 ** (semitoneShift / 12)`. -/
noncomputable def calculateDoFrequency (gender keyId : String) :
    Except GenError ℝ :=
  if ¬ genderKnown gender then .error (.unknownGender gender)
  else match keyOffset keyId with
    | none => .error (.unknownKey keyId)
    | some semitoneShift =>
      match (GENDER_BASE_DO.find? (fun e => e.1 = gender)).map (·.2) with
      | none => .error (.unknownGender gender)
      | some baseDo => .ok (baseDo * (2 : ℝ) ^ ((semitoneShift : ℝ) / 12))

/-- `noteFrequency(semitone, doFrequency, temperament)`:
`doFrequency * 2 ** (semitone / 12)`, equal temperament only. -/
noncomputable def noteFrequency (semitone : ℤ) (doFrequency : ℝ)
    (temperament : String) : Except GenError ℝ :=
  if temperament ≠ EQUAL_TEMPERAMENT then
    .error (.unsupportedTemperament temperament)
  else
    .ok (doFrequency * (2 : ℝ) ^ ((semitone : ℝ) / 12))

/-- `getNotePool(level)`: the level's tokens resolved through `NOTE_BY_TOKEN`
(all tokens of every level resolve). -/
def getNotePool (level : String) : Except GenError (List SDNote) :=
  match difficultyLevel level with
  | none => .error (.unknownLevel level)
  | some definition => .ok (definition.tokens.filterMap noteByToken)

/-- `resolveNotePoolLevel(module)`: `sort_four` at `L1` upgrades to `L2`. -/
def resolveNotePoolLevel (module : Module) : String :=
  if module.questionType = "sort_four" ∧ module.level = "L1" then "L2"
  else module.level

/-- `intervalConstraintForLevel(level)`: 2 semitones at L5, 1 at L6. -/
def intervalConstraintForLevel (level : String) : Option ℤ :=
  if level = "L5" then some 2
  else if level = "L6" then some 1
  else none

/-! ## Question construction (`local-session.js`) -/

/-- All unordered pairs of a list, in the iteration order of the nested
`leftIndex < rightIndex` loops. -/
def upairs {α : Type} : List α → List (α × α)
  | [] => []
  | x :: t => t.map (fun y => (x, y)) ++ upairs t

/-- A visual-hint record `{ index, height }`. -/
structure VisualHint where
  index : ℕ
  height : ℝ

/-- `buildVisualHints(notes)`: heights 50 when all semitones agree, otherwise
`roundTo(10 + normalized * 80, 2)` with `normalized = (s - min)/(max - min)`. -/
noncomputable def buildVisualHints (notes : List SDNote) : List VisualHint :=
  let semitones := notes.map (·.semitone)
  match semitones.min?, semitones.max? with
  | some minSemitone, some maxSemitone =>
    if maxSemitone = minSemitone then
      notes.mapIdx (fun index _ => ⟨index + 1, 50⟩)
    else
      notes.mapIdx (fun index note =>
        let normalized : ℝ :=
          ((note.semitone - minSemitone : ℤ) : ℝ) /
            ((maxSemitone - minSemitone : ℤ) : ℝ)
        ⟨index + 1, roundTo (10 + normalized * 80) 2⟩)
  | _, _ => []

/-- The `validPairs` local of `pickCompareNotes`: all unordered pool pairs
whose absolute semitone difference equals the interval step, in loop order. -/
def validComparePairs (notesPool : List SDNote) (step : ℤ) :
    List (SDNote × SDNote) :=
  (upairs notesPool).filter (fun p => |p.1.semitone - p.2.semitone| = step)

/-- `pickCompareNotes(notesPool, intervalStep)`. -/
def pickCompareNotes (notesPool : List SDNote) (intervalStep : Option ℤ)
    (g : RandStream) : Except GenError (List SDNote × RandStream) :=
  match intervalStep with
  | none => sampleWithoutReplacement notesPool 2 g
  | some step =>
    if (validComparePairs notesPool step).isEmpty then
      sampleWithoutReplacement notesPool 2 g
    else
      match randomChoice (validComparePairs notesPool step) g with
      | .error e => .error e
      | .ok (pair, g') => .ok (shuffleInPlace [pair.1, pair.2] g')

/-- Placeholder for the `undefined` a JavaScript `Map.get` miss would return;
never reached on the executed paths. -/
def undefinedNote : SDNote := ⟨"", "", 0, "", 0, none, none⟩

/-- `noteBySemitone.get(s)` for the map built in `pickSortNotes`: with
duplicate semitones the last pool entry wins, hence the reversed search. -/
def lookupBySemitone (notesPool : List SDNote) (s : ℤ) : Option SDNote :=
  notesPool.reverse.find? (fun n => n.semitone = s)

/-- The `validSequences` local of `pickSortNotes`: every length-`noteCount`
arithmetic semitone progression with the given step, starting at each distinct
pool semitone (in ascending order) and staying inside the pool. -/
def validSortSequences (notesPool : List SDNote) (noteCount : ℕ) (step : ℤ) :
    List (List ℤ) :=
  (((notesPool.map (·.semitone)).dedup).mergeSort (fun a b => a ≤ b)).filterMap
    (fun start =>
      let sequence := (List.range noteCount).map (fun (k : ℕ) => start + step * (k : ℤ))
      if sequence.all (fun s => (lookupBySemitone notesPool s).isSome) then
        some sequence
      else none)

/-- `pickSortNotes(notesPool, noteCount, intervalStep)`: arithmetic semitone
progressions with the given step, falling back to plain sampling. -/
def pickSortNotes (notesPool : List SDNote) (noteCount : ℕ)
    (intervalStep : Option ℤ) (g : RandStream) :
    Except GenError (List SDNote × RandStream) :=
  match intervalStep with
  | none => sampleWithoutReplacement notesPool noteCount g
  | some step =>
    if (validSortSequences notesPool noteCount step).isEmpty then
      sampleWithoutReplacement notesPool noteCount g
    else
      match randomChoice (validSortSequences notesPool noteCount step) g with
      | .error e => .error e
      | .ok (selected, g') =>
        .ok (shuffleInPlace
          (selected.map (fun s => (lookupBySemitone notesPool s).getD undefinedNote))
          g')

/-- An entry of the optional `enharmonic` payload field, or of the list of
additionally `accepted` answers. -/
structure DegreeAccidental where
  degree : String
  accidental : String
  deriving DecidableEq, Repr

/-- What the optional `mapTargetFrequency` callback returns; `none` models a
falsy result, the fields model `sampleId`/`midi` properties of the right type. -/
structure MapCallbackResult where
  sampleId : Option String
  midi : Option ℝ

/-- A note payload as produced by `buildNotePayload`. -/
structure NotePayload where
  token : String
  label : String
  degree : ℕ
  accidental : String
  semitone : ℤ
  frequency : ℝ
  enharmonic : Option DegreeAccidental := none
  sampleId : Option String := none
  midi : Option ℝ := none

/-- `buildNotePayload(note, doFrequency, temperament)`. -/
noncomputable def buildNotePayload (note : SDNote) (doFrequency : ℝ)
    (temperament : String) : Except GenError NotePayload :=
  match noteFrequency note.semitone doFrequency temperament with
  | .error e => .error e
  | .ok freq =>
    .ok { token := note.token
          label := note.display
          degree := note.degree
          accidental := note.accidental
          semitone := note.semitone
          frequency := roundTo freq 4
          enharmonic :=
            match note.enharmonicDegree, note.enharmonicAccidental with
            | some d, some a => some ⟨toString d, a⟩
            | _, _ => none }

/-- Attach `sampleId`/`midi` from the mapping callback when present. -/
noncomputable def applyMapCallback
    (callback : Option (ℝ → Option MapCallbackResult)) (payload : NotePayload) :
    NotePayload :=
  match callback with
  | none => payload
  | some f =>
    match f payload.frequency with
    | none => payload
    | some mapping =>
      { payload with sampleId := mapping.sampleId, midi := mapping.midi }

/-- `buildNotePayloads(notes, doFrequency, temperament, mapTargetFrequency)`. -/
noncomputable def buildNotePayloads (notes : List SDNote) (doFrequency : ℝ)
    (temperament : String) (callback : Option (ℝ → Option MapCallbackResult)) :
    Except GenError (List NotePayload) :=
  match notes with
  | [] => .ok []
  | note :: rest =>
    match buildNotePayload note doFrequency temperament with
    | .error e => .error e
    | .ok payload =>
      match buildNotePayloads rest doFrequency temperament callback with
      | .error e => .error e
      | .ok payloads => .ok (applyMapCallback callback payload :: payloads)

/-- `getPossibleIntervalDistances(notesPool)`: all positive pairwise
scale-degree distances, deduplicated and sorted ascending. -/
def getPossibleIntervalDistances (notesPool : List SDNote) : List ℕ :=
  ((((upairs notesPool).map
      (fun p => ((p.1.degree : ℤ) - (p.2.degree : ℤ)).natAbs)).filter
        (fun d => 0 < d)).dedup).mergeSort (fun a b => a ≤ b)

/-- The `choices` field, whose shape depends on the question type. -/
inductive QuestionChoices where
  | options (opts : List (String × String))
  | positions (positions : List String) (format : String)
  | strs (choices : List String)
  | singleNote (degrees : List String) (accidentals : List String)
      (requiresAccidental : Bool)

/-- The `correctAnswer` field, whose shape depends on the question type. -/
inductive QuestionAnswer where
  | str (s : String)
  | singleNote (main : DegreeAccidental)
      (accepted : Option (List DegreeAccidental))

/-- A generated question record. -/
structure Question where
  id : String
  type : String
  notes : List NotePayload
  visualHints : List VisualHint
  choices : QuestionChoices
  correctAnswer : QuestionAnswer
  promptText : String

/-- The question id template `` `${module.id}-Q${questionNumber}` ``. -/
def questionId (module : Module) (questionNumber : ℕ) : String :=
  module.id ++ "-Q" ++ toString questionNumber

/-- `generateCompareQuestion(...)`. -/
noncomputable def generateCompareQuestion (module : Module)
    (questionNumber : ℕ) (notesPool : List SDNote) (doFrequency : ℝ)
    (temperament : String) (callback : Option (ℝ → Option MapCallbackResult))
    (g : RandStream) : Except GenError (Question × RandStream) :=
  match pickCompareNotes notesPool (intervalConstraintForLevel module.level) g with
  | .error e => .error e
  | .ok (picked, g') =>
    match buildNotePayloads picked doFrequency temperament callback with
    | .error e => .error e
    | .ok notePayloads =>
      .ok (⟨questionId module questionNumber,
            module.questionType,
            notePayloads,
            buildVisualHints picked,
            .options [("first_higher", "First note is higher"),
                      ("second_higher", "Second note is higher")],
            .str (if (picked.getD 0 undefinedNote).semitone >
                    (picked.getD 1 undefinedNote).semitone
                  then "first_higher" else "second_higher"),
            "Listen to two notes. Which one is higher?"⟩, g')

/-- `generateSortQuestion(...)`: the `[...Array(noteCount).keys()].sort(...)`
argsort is modelled with the stable `List.mergeSort` on the index list. -/
noncomputable def generateSortQuestion (module : Module) (questionNumber : ℕ)
    (notesPool : List SDNote) (doFrequency : ℝ) (temperament : String)
    (callback : Option (ℝ → Option MapCallbackResult)) (noteCount : ℕ)
    (g : RandStream) : Except GenError (Question × RandStream) :=
  match pickSortNotes notesPool noteCount (intervalConstraintForLevel module.level) g with
  | .error e => .error e
  | .ok (picked, g') =>
    match buildNotePayloads picked doFrequency temperament callback with
    | .error e => .error e
    | .ok notePayloads =>
      let sortedIndices := (List.range noteCount).mergeSort
        (fun l r => (picked.getD l undefinedNote).semitone ≤
                    (picked.getD r undefinedNote).semitone)
      .ok (⟨questionId module questionNumber,
            module.questionType,
            notePayloads,
            buildVisualHints picked,
            .positions ((List.range noteCount).map (fun i => toString (i + 1)))
              "index_sequence",
            .str (String.intercalate "-"
              (sortedIndices.map (fun i => toString (i + 1)))),
            "Listen to " ++ toString noteCount ++ " notes. Sort from low to high."⟩,
        g')

/-- `generateIntervalQuestion(...)`. -/
noncomputable def generateIntervalQuestion (module : Module)
    (questionNumber : ℕ) (notesPool : List SDNote) (doFrequency : ℝ)
    (temperament : String) (callback : Option (ℝ → Option MapCallbackResult))
    (g : RandStream) : Except GenError (Question × RandStream) :=
  match sampleWithoutReplacement notesPool 2 g with
  | .error e => .error e
  | .ok (picked, g') =>
    match buildNotePayloads picked doFrequency temperament callback with
    | .error e => .error e
    | .ok notePayloads =>
      let distance := (((picked.getD 0 undefinedNote).degree : ℤ) -
        ((picked.getD 1 undefinedNote).degree : ℤ)).natAbs
      .ok (⟨questionId module questionNumber,
            module.questionType,
            notePayloads,
            buildVisualHints picked,
            .strs ((getPossibleIntervalDistances notesPool).map toString),
            .str (toString distance),
            "How many scale steps apart are these two notes?"⟩, g')

/-- `generateSingleNoteQuestion(...)`. -/
noncomputable def generateSingleNoteQuestion (module : Module)
    (questionNumber : ℕ) (notesPool : List SDNote) (doFrequency : ℝ)
    (temperament : String) (callback : Option (ℝ → Option MapCallbackResult))
    (g : RandStream) : Except GenError (Question × RandStream) :=
  match randomChoice notesPool g with
  | .error e => .error e
  | .ok (picked, g') =>
    match buildNotePayloads [picked] doFrequency temperament callback with
    | .error e => .error e
    | .ok notePayloads =>
      let accepted : Option (List DegreeAccidental) :=
        match picked.enharmonicDegree, picked.enharmonicAccidental with
        | some d, some a => some [⟨toString d, a⟩]
        | _, _ => none
      .ok (⟨questionId module questionNumber,
            module.questionType,
            notePayloads,
            [],
            .singleNote ["1", "2", "3", "4", "5", "6", "7"]
              (if module.level = "L4" then ["flat", "natural", "sharp"]
               else ["natural"])
              (module.level = "L4"),
            .singleNote ⟨toString picked.degree, picked.accidental⟩ accepted,
            "Listen to one note. Choose the movable-do number."⟩, g')

/-- `generateQuestion(...)`: dispatch on `module.questionType`. -/
noncomputable def generateQuestion (module : Module) (questionNumber : ℕ)
    (notesPool : List SDNote) (doFrequency : ℝ) (temperament : String)
    (callback : Option (ℝ → Option MapCallbackResult)) (g : RandStream) :
    Except GenError (Question × RandStream) :=
  if module.questionType = "compare_two" then
    generateCompareQuestion module questionNumber notesPool doFrequency
      temperament callback g
  else if module.questionType = "sort_three" then
    generateSortQuestion module questionNumber notesPool doFrequency
      temperament callback 3 g
  else if module.questionType = "sort_four" then
    generateSortQuestion module questionNumber notesPool doFrequency
      temperament callback 4 g
  else if module.questionType = "interval_scale" then
    generateIntervalQuestion module questionNumber notesPool doFrequency
      temperament callback g
  else if module.questionType = "single_note" then
    generateSingleNoteQuestion module questionNumber notesPool doFrequency
      temperament callback g
  else
    .error (.unsupportedQuestionType module.questionType)

/-! ## Session assembly (`local-session.js`) -/

/-- `validateInput(moduleId, gender, key, temperament, instrument)`, with the
checks in source order. -/
def validateInput (moduleId gender key temperament instrument : String) :
    Except GenError Unit :=
  if (moduleById moduleId).isNone then .error (.unknownModule moduleId)
  else if ¬ genderKnown gender then .error (.unknownGender gender)
  else if (keyOffset key).isNone then .error (.unknownKey key)
  else if temperament ≠ EQUAL_TEMPERAMENT then
    .error (.unknownTemperament temperament)
  else if ¬ INSTRUMENT_OPTIONS.any (fun item => item.1 = instrument) then
    .error (.unknownInstrument instrument)
  else .ok ()

/-- The `settings` snapshot of a session. -/
structure SessionSettings where
  moduleId : String
  moduleTitle : String
  level : String
  effectiveNotePoolLevel : String
  questionType : String
  gender : String
  key : String
  temperament : String
  instrument : String
  questionCount : ℕ
  doFrequency : ℝ

/-- A generated session. -/
structure Session where
  sessionId : String
  settings : SessionSettings
  questions : List Question

/-- The `options` argument of `generateSession`. Absent fields of the options
object are modelled as `none`/missing strings are simply unknown ids. -/
structure SessionOptions where
  moduleId : String
  gender : String
  key : String
  temperament : String
  instrument : Option String := none
  mapTargetFrequency : Option (ℝ → Option MapCallbackResult) := none

/-- `options.instrument || "piano"`: of the possible string values of the
field only the empty string is falsy, and an absent field is `undefined`. -/
def resolveInstrument (instrument : Option String) : String :=
  match instrument with
  | none => "piano"
  | some s => if s = "" then "piano" else s

/-- The `for (let index = 0; ...)` question loop: generate `count` questions
numbered consecutively from `firstNumber`. -/
noncomputable def generateQuestions (module : Module) (notesPool : List SDNote)
    (doFrequency : ℝ) (temperament : String)
    (callback : Option (ℝ → Option MapCallbackResult)) :
    ℕ → ℕ → RandStream → Except GenError (List Question × RandStream)
  | _, 0, g => .ok ([], g)
  | firstNumber, count + 1, g =>
    match generateQuestion module firstNumber notesPool doFrequency temperament
      callback g with
    | .error e => .error e
    | .ok (question, g') =>
      match generateQuestions module notesPool doFrequency temperament callback
        (firstNumber + 1) count g' with
      | .error e => .error e
      | .ok (rest, g'') => .ok (question :: rest, g'')

/-- `generateSession(options)`. `createSessionId()` draws on wall-clock or
crypto randomness, so the fresh id is passed in as `sessionId`. -/
noncomputable def generateSession (options : SessionOptions)
    (sessionId : String) (g : RandStream) : Except GenError Session :=
  let instrument := resolveInstrument options.instrument
  match validateInput options.moduleId options.gender options.key
    options.temperament instrument with
  | .error e => .error e
  | .ok () =>
    match moduleById options.moduleId with
    | none => .error (.unknownModule options.moduleId)
    | some module =>
      let effectiveLevel := resolveNotePoolLevel module
      match getNotePool effectiveLevel with
      | .error e => .error e
      | .ok notesPool =>
        match calculateDoFrequency options.gender options.key with
        | .error e => .error e
        | .ok doFrequency =>
          match generateQuestions module notesPool doFrequency
            options.temperament options.mapTargetFrequency 1 QUESTION_COUNT g with
          | .error e => .error e
          | .ok (questions, _) =>
            .ok { sessionId := sessionId
                  settings :=
                    { moduleId := options.moduleId
                      moduleTitle := module.title
                      level := module.level
                      effectiveNotePoolLevel := effectiveLevel
                      questionType := module.questionType
                      gender := options.gender
                      key := options.key
                      temperament := options.temperament
                      instrument := instrument
                      questionCount := QUESTION_COUNT
                      doFrequency := roundTo doFrequency 4 }
                  questions := questions }

/-! ## Sample mapper (`web/assets/app.js`, variant `MAX_CENTS_ERROR = 20` in
the older bundled copy) -/

/-- `MAX_CENTS_ERROR` in `web/assets/app.js`. -/
noncomputable def MAX_CENTS_ERROR_WEB : ℝ := 10

/-- `MAX_CENTS_ERROR` in the older bundled copy of the app script. -/
noncomputable def MAX_CENTS_ERROR_LEGACY : ℝ := 20

/-- A sample-manifest entry (the `file` locator plays no role in mapping). -/
structure SampleEntry where
  id : String
  hz : ℝ

/-- `1200 * Math.log2(targetHz / sampleHz)`. -/
noncomputable def centsErrorOf (targetHz sampleHz : ℝ) : ℝ :=
  1200 * Real.logb 2 (targetHz / sampleHz)

/-- One iteration of the nearest-sample scan. The accumulator is `none` while
`nearestSample === null` (`nearestCents === Infinity`, so the first comparison
always succeeds); afterwards it holds `(nearestSample, nearestCents)`. -/
noncomputable def scanStep (targetHz : ℝ) (acc : Option (SampleEntry × ℝ))
    (sample : SampleEntry) : Option (SampleEntry × ℝ) :=
  let absCents := |centsErrorOf targetHz sample.hz|
  match acc with
  | none => some (sample, absCents)
  | some (nearestSample, nearestCents) =>
    if absCents < nearestCents then some (sample, absCents)
    else some (nearestSample, nearestCents)

/-- The `for (const sample of ...)` scan of `mapTargetHzToSample`. -/
noncomputable def scanNearest (targetHz : ℝ) (samples : List SampleEntry) :
    Option (SampleEntry × ℝ) :=
  samples.foldl (scanStep targetHz) none

/-- What `mapTargetHzToSample` returns. -/
structure SampleMapping where
  sampleId : String
  sampleHz : ℝ
  centsError : ℝ

/-- Errors thrown by the sample mapper and tolerance guard. -/
inductive MapError where
  | invalidTarget (targetHz : ℝ)
  | manifestUnavailable
  | noSample (targetHz : ℝ)
  | toleranceExceeded (maxCents targetHz centsError : ℝ)

/-- `mapTargetHzToSample(targetHz)`; the loaded manifest
(`state.audioManifest.samples`, `none` when the manifest is missing or its
`samples` field is not an array) is passed explicitly. -/
noncomputable def mapTargetHzToSample (targetHz : ℝ)
    (manifestSamples : Option (List SampleEntry)) :
    Except MapError SampleMapping :=
  if ¬ targetHz > 0 then .error (.invalidTarget targetHz)
  else match manifestSamples with
  | none => .error .manifestUnavailable
  | some samples =>
    match scanNearest targetHz samples with
    | none => .error (.noSample targetHz)
    | some (nearestSample, _) =>
      .ok { sampleId := nearestSample.id
            sampleHz := nearestSample.hz
            centsError := centsErrorOf targetHz nearestSample.hz }

/-- `validateMapping(mapping, targetHz)`, parametrised by the deployment's
`MAX_CENTS_ERROR` constant. -/
noncomputable def validateMapping (maxCentsError : ℝ) (mapping : SampleMapping)
    (targetHz : ℝ) : Except MapError Unit :=
  if |mapping.centsError| ≤ maxCentsError then .ok ()
  else .error (.toleranceExceeded maxCentsError targetHz mapping.centsError)

/-- `state.audioManifest`: the `samples` field is `none` when it is not an
array. -/
structure ManifestState where
  samples : Option (List SampleEntry)

/-- The running-minimum loop of `clampFrequencyToSampleRange`: `none` models
the `Infinity` start value, against which every comparison succeeds. -/
noncomputable def runningMin (samples : List SampleEntry) : Option ℝ :=
  samples.foldl (fun acc sample =>
    match acc with
    | none => some sample.hz
    | some minHz => if sample.hz < minHz then some sample.hz else some minHz)
    none

/-- The running-maximum loop of `clampFrequencyToSampleRange`. -/
noncomputable def runningMax (samples : List SampleEntry) : Option ℝ :=
  samples.foldl (fun acc sample =>
    match acc with
    | none => some sample.hz
    | some maxHz => if sample.hz > maxHz then some sample.hz else some maxHz)
    none

/-- `clampFrequencyToSampleRange(frequency)`. The `Number.isFinite` re-check
on the computed bounds corresponds to the `none` fallthrough (the bounds stay
infinite only when the loop never ran, which the length guard already
excludes). -/
noncomputable def clampFrequencyToSampleRange (manifest : Option ManifestState)
    (frequency : ℝ) : ℝ :=
  match manifest with
  | none => frequency
  | some m =>
    match m.samples with
    | none => frequency
    | some [] => frequency
    | some samples =>
      match runningMin samples, runningMax samples with
      | some minHz, some maxHz => min maxHz (max minHz frequency)
      | _, _ => frequency

/-- The payload `buildNotePayload` produces under equal temperament. -/
noncomputable def payloadOfNote (note : SDNote) (doFrequency : ℝ) : NotePayload :=
  { token := note.token
    label := note.display
    degree := note.degree
    accidental := note.accidental
    semitone := note.semitone
    frequency := roundTo (doFrequency * (2 : ℝ) ^ ((note.semitone : ℝ) / 12)) 4
    enharmonic :=
      match note.enharmonicDegree, note.enharmonicAccidental with
      | some d, some a => some ⟨toString d, a⟩
      | _, _ => none }

/-- The payload each note contributes, after the optional mapping callback. -/
noncomputable def finalPayload (callback : Option (ℝ → Option MapCallbackResult))
    (doFrequency : ℝ) (note : SDNote) : NotePayload :=
  applyMapCallback callback (payloadOfNote note doFrequency)

section PermLemmas

variable {α : Type}

/-- Replacing the element at position `m` by `x` while re-consing the old
element is a permutation: `b :: t.set m x ~ x :: t` when `t[m] = b`. -/
theorem cons_set_perm : ∀ (t : List α) (m : ℕ) (b x : α), t[m]? = some b →
    (b :: t.set m x).Perm (x :: t)
  | [], m, b, x, h => by simp at h
  | y :: t', 0, b, x, h => by
    simp only [List.getElem?_cons_zero, Option.some.injEq] at h
    subst h
    simpa using List.Perm.swap x y t'
  | y :: t', m + 1, b, x, h => by
    simp only [List.getElem?_cons_succ] at h
    have ih := cons_set_perm t' m b x h
    have h1 : (b :: y :: t'.set m x).Perm (y :: b :: t'.set m x) :=
      List.Perm.swap y b _
    have h2 : (y :: b :: t'.set m x).Perm (y :: x :: t') := ih.cons y
    have h3 : (y :: x :: t').Perm (x :: y :: t') := List.Perm.swap x y t'
    simpa using (h1.trans h2).trans h3

/-- A swap is a permutation. -/
theorem swapL_perm : ∀ (l : List α) (i j : ℕ), (swapL l i j).Perm l := by
  intro l
  induction l with
  | nil => intro i j; simp [swapL]
  | cons x t ih =>
    intro i j
    match i, j with
    | 0, 0 =>
      simp [swapL]
    | 0, m + 1 =>
      unfold swapL
      simp only [List.getElem?_cons_zero, List.getElem?_cons_succ]
      cases h : t[m]? with
      | none => exact List.Perm.refl _
      | some b =>
        simp only [List.set_cons_zero, List.set_cons_succ]
        exact cons_set_perm t m b x h
    | m + 1, 0 =>
      unfold swapL
      simp only [List.getElem?_cons_zero, List.getElem?_cons_succ]
      cases h : t[m]? with
      | none => exact List.Perm.refl _
      | some a =>
        simp only [List.set_cons_succ, List.set_cons_zero]
        exact cons_set_perm t m a x h
    | m + 1, k + 1 =>
      unfold swapL
      simp only [List.getElem?_cons_succ]
      cases hm : t[m]? with
      | none => exact List.Perm.refl _
      | some a =>
        cases hk : t[k]? with
        | none => exact List.Perm.refl _
        | some b =>
          simp only [List.set_cons_succ]
          have := ih m k
          unfold swapL at this
          rw [hm, hk] at this
          exact this.cons x

/-- The shuffle loop permutes its input. -/
theorem shuffleAux_perm : ∀ (n : ℕ) (l : List α) (g : RandStream),
    (shuffleAux l g n).1.Perm l
  | 0, l, g => List.Perm.refl l
  | n + 1, l, g => by
    have ih := shuffleAux_perm n (swapL l (n + 1) (g 0 % (n + 2))) (shiftStream g)
    exact ih.trans (swapL_perm l (n + 1) (g 0 % (n + 2)))

/-- `shuffleInPlace` returns a permutation of its input. -/
theorem shuffleInPlace_perm (l : List α) (g : RandStream) :
    (shuffleInPlace l g).1.Perm l :=
  shuffleAux_perm (l.length - 1) l g

theorem shuffleInPlace_length (l : List α) (g : RandStream) :
    (shuffleInPlace l g).1.length = l.length :=
  (shuffleInPlace_perm l g).length_eq

/-- Sampling without replacement succeeds exactly when enough elements exist,
and then returns `count` elements all drawn from the input list. -/
theorem sampleWithoutReplacement_ok {α : Type} (values : List α) (count : ℕ)
    (g : RandStream) (h : count ≤ values.length) :
    ∃ picked g', sampleWithoutReplacement values count g = .ok (picked, g') ∧
      picked.length = count ∧ ∀ x ∈ picked, x ∈ values := by
  unfold sampleWithoutReplacement
  rw [if_neg (by omega)]
  refine ⟨_, _, rfl, ?_, ?_⟩
  · rw [List.length_take, shuffleInPlace_length]
    omega
  · intro x hx
    exact (shuffleInPlace_perm values g).mem_iff.mp (List.mem_of_mem_take hx)

end PermLemmas

/-! ## Helper lemmas: note payloads -/

theorem buildNotePayload_eq (note : SDNote) (doFrequency : ℝ) :
    buildNotePayload note doFrequency EQUAL_TEMPERAMENT =
      .ok (payloadOfNote note doFrequency) := by
  simp [buildNotePayload, noteFrequency, payloadOfNote]

theorem buildNotePayloads_eq (notes : List SDNote) (doFrequency : ℝ)
    (callback : Option (ℝ → Option MapCallbackResult)) :
    buildNotePayloads notes doFrequency EQUAL_TEMPERAMENT callback =
      .ok (notes.map (finalPayload callback doFrequency)) := by
  induction notes with
  | nil => simp [buildNotePayloads]
  | cons note rest ih =>
    simp [buildNotePayloads, buildNotePayload_eq, ih, finalPayload]

theorem applyMapCallback_token (callback) (p : NotePayload) :
    (applyMapCallback callback p).token = p.token := by
  cases callback with
  | none => rfl
  | some f =>
    simp only [applyMapCallback]
    cases f p.frequency <;> rfl

theorem applyMapCallback_semitone (callback) (p : NotePayload) :
    (applyMapCallback callback p).semitone = p.semitone := by
  cases callback with
  | none => rfl
  | some f =>
    simp only [applyMapCallback]
    cases f p.frequency <;> rfl

theorem applyMapCallback_frequency (callback) (p : NotePayload) :
    (applyMapCallback callback p).frequency = p.frequency := by
  cases callback with
  | none => rfl
  | some f =>
    simp only [applyMapCallback]
    cases f p.frequency <;> rfl

theorem finalPayload_token (callback) (doFrequency : ℝ) (note : SDNote) :
    (finalPayload callback doFrequency note).token = note.token := by
  simp [finalPayload, applyMapCallback_token, payloadOfNote]

theorem finalPayload_semitone (callback) (doFrequency : ℝ) (note : SDNote) :
    (finalPayload callback doFrequency note).semitone = note.semitone := by
  simp [finalPayload, applyMapCallback_semitone, payloadOfNote]

theorem finalPayload_frequency (callback) (doFrequency : ℝ) (note : SDNote) :
    (finalPayload callback doFrequency note).frequency =
      roundTo (doFrequency * (2 : ℝ) ^ ((note.semitone : ℝ) / 12)) 4 := by
  simp [finalPayload, applyMapCallback_frequency, payloadOfNote]

end TonicEar

namespace TonicEar

/-! ## Claim C6 and C10: tolerance guard and range clamping -/

theorem runningMin_fold (l : List SampleEntry) :
    ∀ v : ℝ, ∃ m, l.foldl (fun acc sample =>
      match acc with
      | none => some sample.hz
      | some minHz => if sample.hz < minHz then some sample.hz else some minHz)
      (some v) = some m ∧ (m = v ∨ m ∈ l.map (·.hz)) ∧ m ≤ v ∧
      ∀ x ∈ l.map (·.hz), m ≤ x := by
  induction l with
  | nil => intro v; exact ⟨v, rfl, Or.inl rfl, le_refl v, by simp⟩
  | cons s t ih =>
    intro v
    by_cases h : s.hz < v
    · obtain ⟨m, hfold, hmem, hle, hall⟩ := ih s.hz
      refine ⟨m, ?_, ?_, ?_, ?_⟩
      · simpa [h] using hfold
      · rcases hmem with rfl | hm
        · exact Or.inr (by simp)
        · exact Or.inr (by simp [hm])
      · exact le_trans hle (le_of_lt h)
      · intro x hx
        rw [List.map_cons, List.mem_cons] at hx
        rcases hx with rfl | hx'
        · exact hle
        · exact hall x hx'
  -- wait, hx is membership in (s :: t).map hz = s.hz :: t.map hz
    · obtain ⟨m, hfold, hmem, hle, hall⟩ := ih v
      refine ⟨m, ?_, ?_, hle, ?_⟩
      · simpa [h] using hfold
      · rcases hmem with rfl | hm
        · exact Or.inl rfl
        · exact Or.inr (by simp [hm])
      · intro x hx
        rw [List.map_cons, List.mem_cons] at hx
        rcases hx with rfl | hx'
        · exact le_trans hle (not_lt.mp h)
        · exact hall x hx'

theorem runningMax_fold (l : List SampleEntry) :
    ∀ v : ℝ, ∃ m, l.foldl (fun acc sample =>
      match acc with
      | none => some sample.hz
      | some maxHz => if sample.hz > maxHz then some sample.hz else some maxHz)
      (some v) = some m ∧ (m = v ∨ m ∈ l.map (·.hz)) ∧ v ≤ m ∧
      ∀ x ∈ l.map (·.hz), x ≤ m := by
  induction l with
  | nil => intro v; exact ⟨v, rfl, Or.inl rfl, le_refl v, by simp⟩
  | cons s t ih =>
    intro v
    by_cases h : s.hz > v
    · obtain ⟨m, hfold, hmem, hle, hall⟩ := ih s.hz
      refine ⟨m, ?_, ?_, ?_, ?_⟩
      · simpa [h] using hfold
      · rcases hmem with rfl | hm
        · exact Or.inr (by simp)
        · exact Or.inr (by simp [hm])
      · exact le_trans (le_of_lt h) hle
      · intro x hx
        rw [List.map_cons, List.mem_cons] at hx
        rcases hx with rfl | hx'
        · exact hle
        · exact hall x hx'
    · obtain ⟨m, hfold, hmem, hle, hall⟩ := ih v
      refine ⟨m, ?_, ?_, hle, ?_⟩
      · simpa [h] using hfold
      · rcases hmem with rfl | hm
        · exact Or.inl rfl
        · exact Or.inr (by simp [hm])
      · intro x hx
        rw [List.map_cons, List.mem_cons] at hx
        rcases hx with rfl | hx'
        · exact le_trans (not_lt.mp h) hle
        · exact hall x hx'

/-- `runningMin` over a non-empty list is the least `hz`, and it is attained. -/
theorem runningMin_spec (s : SampleEntry) (t : List SampleEntry) :
    ∃ m, runningMin (s :: t) = some m ∧ m ∈ (s :: t).map (·.hz) ∧
      ∀ x ∈ (s :: t).map (·.hz), m ≤ x := by
  obtain ⟨m, hfold, hmem, hle, hall⟩ := runningMin_fold t s.hz
  refine ⟨m, ?_, ?_, ?_⟩
  · simpa [runningMin] using hfold
  · rcases hmem with rfl | hm
    · simp
    · simp [hm]
  · intro x hx
    rw [List.map_cons, List.mem_cons] at hx
    rcases hx with rfl | hx'
    · exact hle
    · exact hall x hx'

/-- `runningMax` over a non-empty list is the greatest `hz`, and it is
attained. -/
theorem runningMax_spec (s : SampleEntry) (t : List SampleEntry) :
    ∃ m, runningMax (s :: t) = some m ∧ m ∈ (s :: t).map (·.hz) ∧
      ∀ x ∈ (s :: t).map (·.hz), x ≤ m := by
  obtain ⟨m, hfold, hmem, hle, hall⟩ := runningMax_fold t s.hz
  refine ⟨m, ?_, ?_, ?_⟩
  · simpa [runningMax] using hfold
  · rcases hmem with rfl | hm
    · simp
    · simp [hm]
  · intro x hx
    rw [List.map_cons, List.mem_cons] at hx
    rcases hx with rfl | hx'
    · exact hle
    · exact hall x hx'

end TonicEar

namespace TonicEar

/-- Claim C10: `clampFrequencyToSampleRange` returns its input frequency
unchanged whenever the manifest is absent, its `samples` field is not an
array, or it has zero entries; with at least one entry it clamps the
frequency into the manifest's observed `[minimum hz, maximum hz]` range. -/
theorem clampFrequencyToSampleRange_spec (frequency : ℝ) :
    clampFrequencyToSampleRange none frequency = frequency ∧
    clampFrequencyToSampleRange (some ⟨none⟩) frequency = frequency ∧
    clampFrequencyToSampleRange (some ⟨some []⟩) frequency = frequency ∧
    ∀ (s : SampleEntry) (t : List SampleEntry),
      ∃ minHz maxHz,
        minHz ∈ (s :: t).map (·.hz) ∧ (∀ x ∈ (s :: t).map (·.hz), minHz ≤ x) ∧
        maxHz ∈ (s :: t).map (·.hz) ∧ (∀ x ∈ (s :: t).map (·.hz), x ≤ maxHz) ∧
        clampFrequencyToSampleRange (some ⟨some (s :: t)⟩) frequency =
          min maxHz (max minHz frequency) := by
  refine ⟨rfl, rfl, rfl, ?_⟩
  intro s t
  obtain ⟨mn, hmn, hmnMem, hmnAll⟩ := runningMin_spec s t
  obtain ⟨mx, hmx, hmxMem, hmxAll⟩ := runningMax_spec s t
  refine ⟨mn, mx, hmnMem, hmnAll, hmxMem, hmxAll, ?_⟩
  simp only [clampFrequencyToSampleRange]
  rw [hmn, hmx]

/-- Claim C6: the tolerance guard `validateMapping` succeeds exactly when
`|centsError|` is at most the deployment's `MAX_CENTS_ERROR` (10 in the web
bundle, 20 in the legacy bundle); beyond the threshold it fails with an error
carrying the offending target frequency and the actual cents error. -/
theorem validateMapping_spec (maxCentsError : ℝ) (mapping : SampleMapping)
    (targetHz : ℝ)
    (hconf : maxCentsError = MAX_CENTS_ERROR_WEB ∨
      maxCentsError = MAX_CENTS_ERROR_LEGACY) :
    (validateMapping maxCentsError mapping targetHz = .ok () ↔
      |mapping.centsError| ≤ maxCentsError) ∧
    (maxCentsError < |mapping.centsError| →
      validateMapping maxCentsError mapping targetHz =
        .error (.toleranceExceeded maxCentsError targetHz mapping.centsError)) := by
  unfold validateMapping
  constructor
  · by_cases h : |mapping.centsError| ≤ maxCentsError <;> simp [h]
  · intro hlt
    rw [if_neg (not_le.mpr hlt)]

/-- Witness for C6 at the web configuration and a mapping with zero error. -/
theorem validateMapping_spec_witness :
    (validateMapping MAX_CENTS_ERROR_WEB ⟨"C3", 130.81, 0⟩ 130.8 = .ok () ↔
      |(SampleMapping.mk "C3" 130.81 0).centsError| ≤ MAX_CENTS_ERROR_WEB) ∧
    (MAX_CENTS_ERROR_WEB < |(SampleMapping.mk "C3" 130.81 0).centsError| →
      validateMapping MAX_CENTS_ERROR_WEB ⟨"C3", 130.81, 0⟩ 130.8 =
        .error (.toleranceExceeded MAX_CENTS_ERROR_WEB 130.8
          (SampleMapping.mk "C3" 130.81 0).centsError)) :=
  validateMapping_spec MAX_CENTS_ERROR_WEB ⟨"C3", 130.81, 0⟩ 130.8 (Or.inl rfl)

end TonicEar

namespace TonicEar

/-! ## Claim C2 and C7: nearest-sample scan -/

/-- Invariant of the nearest-sample fold: starting from a current best `b`,
the fold returns the first entry (of `b` then `l`, in iteration order) that
attains the minimal absolute cents error. -/
theorem scanFold_spec (t : ℝ) :
    ∀ (l : List SampleEntry) (b : SampleEntry),
    ∃ r : SampleEntry,
      l.foldl (scanStep t) (some (b, |centsErrorOf t b.hz|)) =
        some (r, |centsErrorOf t r.hz|) ∧
      (r = b ∨ r ∈ l) ∧
      |centsErrorOf t r.hz| ≤ |centsErrorOf t b.hz| ∧
      (∀ s ∈ l, |centsErrorOf t r.hz| ≤ |centsErrorOf t s.hz|) ∧
      (r = b ∨ ∃ l₁ l₂, l = l₁ ++ r :: l₂ ∧
        |centsErrorOf t r.hz| < |centsErrorOf t b.hz| ∧
        ∀ s ∈ l₁, |centsErrorOf t r.hz| < |centsErrorOf t s.hz|) := by
  intro l
  induction l with
  | nil =>
    intro b
    exact ⟨b, rfl, Or.inl rfl, le_refl _, by simp, Or.inl rfl⟩
  | cons s rest ih =>
    intro b
    by_cases h : |centsErrorOf t s.hz| < |centsErrorOf t b.hz|
    · obtain ⟨r, hfold, hmem, hle, hall, hfirst⟩ := ih s
      refine ⟨r, ?_, ?_, ?_, ?_, ?_⟩
      · rw [List.foldl_cons]
        have hstep : scanStep t (some (b, |centsErrorOf t b.hz|)) s =
            some (s, |centsErrorOf t s.hz|) := by
          simp [scanStep, h]
        rw [hstep]
        exact hfold
      · rcases hmem with rfl | hm
        · exact Or.inr (List.mem_cons_self _ _)
        · exact Or.inr (List.mem_cons_of_mem _ hm)
      · exact le_trans hle (le_of_lt h)
      · intro x hx
        rcases List.mem_cons.mp hx with rfl | hx'
        · exact hle
        · exact hall x hx'
      · rcases hfirst with rfl | ⟨l₁, l₂, hdec, hlt, hbefore⟩
        · exact Or.inr ⟨[], rest, rfl, h, by simp⟩
        · refine Or.inr ⟨s :: l₁, l₂, by rw [hdec]; rfl,
            lt_trans hlt h, ?_⟩
          intro x hx
          rcases List.mem_cons.mp hx with rfl | hx'
          · exact hlt
          · exact hbefore x hx'
    · obtain ⟨r, hfold, hmem, hle, hall, hfirst⟩ := ih b
      refine ⟨r, ?_, ?_, hle, ?_, ?_⟩
      · rw [List.foldl_cons]
        have hstep : scanStep t (some (b, |centsErrorOf t b.hz|)) s =
            some (b, |centsErrorOf t b.hz|) := by
          simp [scanStep, h]
        rw [hstep]
        exact hfold
      · rcases hmem with rfl | hm
        · exact Or.inl rfl
        · exact Or.inr (List.mem_cons_of_mem _ hm)
      · intro x hx
        rcases List.mem_cons.mp hx with rfl | hx'
        · exact le_trans hle (not_lt.mp h)
        · exact hall x hx'
      · rcases hfirst with rfl | ⟨l₁, l₂, hdec, hlt, hbefore⟩
        · exact Or.inl rfl
        · refine Or.inr ⟨s :: l₁, l₂, by rw [hdec]; rfl, hlt, ?_⟩
          intro x hx
          rcases List.mem_cons.mp hx with rfl | hx'
          · exact lt_of_lt_of_le hlt (not_lt.mp h)
          · exact hbefore x hx'

/-- The scan over a non-empty manifest returns the first entry attaining the
minimal absolute cents error. -/
theorem scanNearest_spec (t : ℝ) (s : SampleEntry) (rest : List SampleEntry) :
    ∃ r l₁ l₂,
      scanNearest t (s :: rest) = some (r, |centsErrorOf t r.hz|) ∧
      s :: rest = l₁ ++ r :: l₂ ∧
      (∀ x ∈ s :: rest, |centsErrorOf t r.hz| ≤ |centsErrorOf t x.hz|) ∧
      ∀ x ∈ l₁, |centsErrorOf t r.hz| < |centsErrorOf t x.hz| := by
  obtain ⟨r, hfold, hmem, hle, hall, hfirst⟩ := scanFold_spec t rest s
  have hscan : scanNearest t (s :: rest) = some (r, |centsErrorOf t r.hz|) := by
    unfold scanNearest
    rw [List.foldl_cons]
    have hstep : scanStep t none s = some (s, |centsErrorOf t s.hz|) := rfl
    rw [hstep]
    exact hfold
  rcases hfirst with rfl | ⟨l₁, l₂, hdec, hlt, hbefore⟩
  · refine ⟨r, [], rest, hscan, rfl, ?_, by simp⟩
    intro x hx
    rcases List.mem_cons.mp hx with rfl | hx'
    · exact le_refl _
    · exact hall x hx'
  · refine ⟨r, s :: l₁, l₂, hscan, by rw [hdec]; simp, ?_, ?_⟩
    · intro x hx
      rcases List.mem_cons.mp hx with rfl | hx'
      · exact le_of_lt hlt
      · exact hall x hx'
    · intro x hx
      rcases List.mem_cons.mp hx with rfl | hx'
      · exact hlt
      · exact hbefore x hx'

end TonicEar

namespace TonicEar

/-- Claim C2: for a positive target frequency the mapper scans the whole
manifest and returns the entry minimizing `|1200 * log2(targetHz / hz)|`,
the first entry in iteration order winning ties (every strictly earlier
entry has strictly larger error); for a non-positive target it fails with
the invalid-target error. -/
theorem mapTargetHzToSample_spec (targetHz : ℝ) (s : SampleEntry)
    (rest : List SampleEntry) :
    (¬ targetHz > 0 →
      mapTargetHzToSample targetHz (some (s :: rest)) =
        .error (.invalidTarget targetHz)) ∧
    (targetHz > 0 → ∃ result l₁ l₂,
      mapTargetHzToSample targetHz (some (s :: rest)) = .ok result ∧
      result.centsError = centsErrorOf targetHz result.sampleHz ∧
      s :: rest = l₁ ++ (⟨result.sampleId, result.sampleHz⟩ : SampleEntry) :: l₂ ∧
      (∀ x ∈ s :: rest,
        |centsErrorOf targetHz result.sampleHz| ≤ |centsErrorOf targetHz x.hz|) ∧
      (∀ x ∈ l₁,
        |centsErrorOf targetHz result.sampleHz| < |centsErrorOf targetHz x.hz|)) := by
  constructor
  · intro h
    unfold mapTargetHzToSample
    rw [if_pos h]
  · intro h
    obtain ⟨r, l₁, l₂, hscan, hdec, hall, hbefore⟩ := scanNearest_spec targetHz s rest
    refine ⟨⟨r.id, r.hz, centsErrorOf targetHz r.hz⟩, l₁, l₂, ?_, rfl, hdec, hall,
      hbefore⟩
    have hreduce : mapTargetHzToSample targetHz (some (s :: rest)) =
        match scanNearest targetHz (s :: rest) with
        | none => .error (.noSample targetHz)
        | some (nearestSample, _) =>
          .ok ⟨nearestSample.id, nearestSample.hz,
            centsErrorOf targetHz nearestSample.hz⟩ := by
      unfold mapTargetHzToSample
      rw [if_neg (not_not_intro h)]
    rw [hreduce, hscan]

/-- Witness for C2 on a one-entry manifest at target 100 Hz. -/
theorem mapTargetHzToSample_spec_witness :
    ∃ result l₁ l₂,
      mapTargetHzToSample 100 (some [⟨"a", 100⟩]) = .ok result ∧
      result.centsError = centsErrorOf 100 result.sampleHz ∧
      [(⟨"a", 100⟩ : SampleEntry)] =
        l₁ ++ (⟨result.sampleId, result.sampleHz⟩ : SampleEntry) :: l₂ ∧
      (∀ x ∈ [(⟨"a", 100⟩ : SampleEntry)],
        |centsErrorOf 100 result.sampleHz| ≤ |centsErrorOf 100 x.hz|) ∧
      (∀ x ∈ l₁,
        |centsErrorOf 100 result.sampleHz| < |centsErrorOf 100 x.hz|) :=
  (mapTargetHzToSample_spec 100 ⟨"a", 100⟩ []).2 (by norm_num)

theorem centsErrorOf_self (t : ℝ) : centsErrorOf t t = 0 := by
  unfold centsErrorOf
  by_cases h : t = 0
  · simp [h]
  · rw [div_self h, Real.logb_one, mul_zero]

theorem centsErrorOf_eq_zero_iff (t hz : ℝ) (ht : 0 < t) (hhz : 0 < hz) :
    centsErrorOf t hz = 0 ↔ t = hz := by
  unfold centsErrorOf
  constructor
  · intro h
    have hlogb : Real.logb 2 (t / hz) = 0 := by linarith
    rcases Real.logb_eq_zero.mp hlogb with h2 | h2 | h2 | h2 | h2 | h2
    · norm_num at h2
    · norm_num at h2
    · norm_num at h2
    · exact absurd h2 (ne_of_gt (div_pos ht hhz))
    · exact (div_eq_one_iff_eq (ne_of_gt hhz)).mp h2
    · exact absurd h2 (by nlinarith [div_pos ht hhz])
  · intro h
    rw [h, div_self (ne_of_gt hhz), Real.logb_one, mul_zero]

end TonicEar

namespace TonicEar

/-- Counterexample to C7 as stated: with duplicate `hz` values the entry
`⟨"b", 100⟩` is in the manifest, yet mapping its own frequency 100 returns
the earlier entry's id `"a"`, not `"b"`. -/
theorem mapTargetHzToSample_roundTrip_counterexample :
    mapTargetHzToSample 100 (some [⟨"a", 100⟩, ⟨"b", 100⟩]) =
      .ok ⟨"a", 100, 0⟩ ∧
    (⟨"b", 100⟩ : SampleEntry) ∈ [(⟨"a", 100⟩ : SampleEntry), ⟨"b", 100⟩] ∧
    ∀ result, mapTargetHzToSample 100 (some [⟨"a", 100⟩, ⟨"b", 100⟩]) =
      .ok result → result.sampleId ≠ "b" := by
  have hc : centsErrorOf (100 : ℝ) 100 = 0 := centsErrorOf_self 100
  have hmain : mapTargetHzToSample 100 (some [⟨"a", 100⟩, ⟨"b", 100⟩]) =
      .ok ⟨"a", 100, 0⟩ := by
    have habs : |centsErrorOf (100 : ℝ) 100| = 0 := by rw [hc]; simp
    have hscan : scanNearest 100 [⟨"a", 100⟩, ⟨"b", 100⟩] =
        some (⟨"a", 100⟩, |centsErrorOf (100 : ℝ) 100|) := by
      unfold scanNearest
      simp only [List.foldl_cons, List.foldl_nil]
      have h1 : scanStep 100 none ⟨"a", 100⟩ =
          some (⟨"a", 100⟩, |centsErrorOf (100 : ℝ) 100|) := rfl
      rw [h1]
      unfold scanStep
      simp [habs]
    have hreduce : mapTargetHzToSample 100 (some [⟨"a", 100⟩, ⟨"b", 100⟩]) =
        match scanNearest 100 [⟨"a", 100⟩, ⟨"b", 100⟩] with
        | none => .error (.noSample 100)
        | some (nearestSample, _) =>
          .ok ⟨nearestSample.id, nearestSample.hz,
            centsErrorOf 100 nearestSample.hz⟩ := by
      unfold mapTargetHzToSample
      rw [if_neg (by norm_num)]
    rw [hreduce, hscan]
    simp [hc]
  refine ⟨hmain, by simp, ?_⟩
  intro result hres hid
  rw [hmain] at hres
  have : result = ⟨"a", 100, 0⟩ := by
    injection hres with h
    exact h.symm
  rw [this] at hid
  simp at hid

end TonicEar

namespace TonicEar

/-- Claim C7 (amended): self-mapping is exact for every manifest entry whose
`hz` does not already occur earlier in the manifest: mapping the recorded
frequency of such an entry returns its own id and a cents error of exactly 0.
(With duplicated `hz` values the first entry carrying that frequency wins.) -/
theorem mapTargetHzToSample_roundTrip (samples : List SampleEntry) (i : ℕ)
    (hi : i < samples.length)
    (hpos : ∀ x ∈ samples, 0 < x.hz)
    (hfirst : ∀ j (hj : j < i),
      (samples.get ⟨j, lt_trans hj hi⟩).hz ≠ (samples.get ⟨i, hi⟩).hz) :
    mapTargetHzToSample (samples.get ⟨i, hi⟩).hz (some samples) =
      .ok ⟨(samples.get ⟨i, hi⟩).id, (samples.get ⟨i, hi⟩).hz, 0⟩ := by
  obtain ⟨s, rest, rfl⟩ : ∃ s rest, samples = s :: rest := by
    cases samples with
    | nil => simp at hi
    | cons s rest => exact ⟨s, rest, rfl⟩
  have htpos : 0 < ((s :: rest).get ⟨i, hi⟩).hz := hpos _ (List.get_mem _ _ _)
  obtain ⟨r, l₁, l₂, hscan, hdec, hall, hbefore⟩ :=
    scanNearest_spec ((s :: rest).get ⟨i, hi⟩).hz s rest
  have hrmem : r ∈ s :: rest := by
    rw [hdec]
    exact List.mem_append_right l₁ (List.mem_cons_self r l₂)
  have hselfzero :
      |centsErrorOf ((s :: rest).get ⟨i, hi⟩).hz ((s :: rest).get ⟨i, hi⟩).hz| = 0 := by
    rw [centsErrorOf_self]
    exact abs_zero
  have habs0 : |centsErrorOf ((s :: rest).get ⟨i, hi⟩).hz r.hz| = 0 := by
    have hle := hall ((s :: rest).get ⟨i, hi⟩) (List.get_mem (s :: rest) i hi)
    rw [hselfzero] at hle
    exact le_antisymm hle (abs_nonneg _)
  have hrhz : r.hz = ((s :: rest).get ⟨i, hi⟩).hz :=
    ((centsErrorOf_eq_zero_iff _ _ htpos (hpos r hrmem)).mp
      (abs_eq_zero.mp habs0)).symm
  have hplen : l₁.length < (s :: rest).length := by
    rw [hdec, List.length_append, List.length_cons]
    omega
  have hgetp : (s :: rest).get ⟨l₁.length, hplen⟩ = r := by
    have := List.get_of_eq hdec ⟨l₁.length, hplen⟩
    rw [this, List.get_eq_getElem, List.getElem_append_right (le_refl _)]
    simp
  have hpi : l₁.length = i := by
    rcases lt_trichotomy l₁.length i with hlt | heq | hgt
    · exfalso
      apply hfirst l₁.length hlt
      rw [show (s :: rest).get ⟨l₁.length, lt_trans hlt hi⟩ =
            (s :: rest).get ⟨l₁.length, hplen⟩ from rfl, hgetp]
      exact hrhz
    · exact heq
    · exfalso
      have hmem₁ : (s :: rest).get ⟨i, hi⟩ ∈ l₁ := by
        have := List.get_of_eq hdec ⟨i, hi⟩
        rw [this, List.get_eq_getElem, List.getElem_append_left hgt]
        exact List.getElem_mem hgt
      have := hbefore _ hmem₁
      rw [hselfzero] at this
      exact absurd this (not_lt.mpr (abs_nonneg _))
  have hri : r = (s :: rest).get ⟨i, hi⟩ := by
    rw [← hgetp]
    congr 1
    exact Fin.ext hpi
  have hreduce : mapTargetHzToSample ((s :: rest).get ⟨i, hi⟩).hz
      (some (s :: rest)) =
      match scanNearest ((s :: rest).get ⟨i, hi⟩).hz (s :: rest) with
      | none => .error (.noSample ((s :: rest).get ⟨i, hi⟩).hz)
      | some (nearestSample, _) =>
        .ok ⟨nearestSample.id, nearestSample.hz,
          centsErrorOf ((s :: rest).get ⟨i, hi⟩).hz nearestSample.hz⟩ := by
    unfold mapTargetHzToSample
    rw [if_neg (not_not_intro htpos)]
  rw [hreduce, hscan, hri]
  simp [centsErrorOf_self]

end TonicEar

namespace TonicEar

/-- Witness for the amended C7 on a concrete one-entry manifest. -/
theorem mapTargetHzToSample_roundTrip_witness :
    mapTargetHzToSample 100 (some [(⟨"a", 100⟩ : SampleEntry)]) =
      .ok ⟨"a", 100, 0⟩ := by
  have h := mapTargetHzToSample_roundTrip [⟨"a", 100⟩] 0 (by norm_num)
    (by
      intro x hx
      simp only [List.mem_singleton] at hx
      subst hx
      norm_num)
    (by intro j hj; omega)
  exact h

/-- Witness for C10 on a concrete one-entry manifest. -/
theorem clampFrequencyToSampleRange_spec_witness :
    ∃ minHz maxHz,
      minHz ∈ [(⟨"a", 100⟩ : SampleEntry)].map (·.hz) ∧
      (∀ x ∈ [(⟨"a", 100⟩ : SampleEntry)].map (·.hz), minHz ≤ x) ∧
      maxHz ∈ [(⟨"a", 100⟩ : SampleEntry)].map (·.hz) ∧
      (∀ x ∈ [(⟨"a", 100⟩ : SampleEntry)].map (·.hz), x ≤ maxHz) ∧
      clampFrequencyToSampleRange (some ⟨some [⟨"a", 100⟩]⟩) 5 =
        min maxHz (max minHz 5) :=
  (clampFrequencyToSampleRange_spec 5).2.2.2 ⟨"a", 100⟩ []

end TonicEar

namespace TonicEar

/-! ## Claim C3: compare-pair selection at L5/L6 -/

theorem randomChoice_spec {α : Type} (values : List α) (g : RandStream) (d : α)
    (h : values ≠ []) :
    randomChoice values g =
      .ok (values.getD (g 0 % values.length) d, shiftStream g) := by
  unfold randomChoice
  have hlen : ¬ values.length = 0 := by
    intro hc
    exact h (List.eq_nil_of_length_eq_zero hc)
  rw [dif_neg hlen]
  have hlt : g 0 % values.length < values.length :=
    Nat.mod_lt _ (Nat.pos_of_ne_zero hlen)
  rw [List.getD_eq_get values d hlt]

theorem pickCompareNotes_some (notesPool : List SDNote) (step : ℤ)
    (g : RandStream) :
    pickCompareNotes notesPool (some step) g =
      if (validComparePairs notesPool step).isEmpty then
        sampleWithoutReplacement notesPool 2 g
      else
        match randomChoice (validComparePairs notesPool step) g with
        | .error e => .error e
        | .ok (pair, g') => .ok (shuffleInPlace [pair.1, pair.2] g') := rfl

theorem pickCompareNotes_constrained (notesPool : List SDNote) (step : ℤ)
    (g : RandStream) (hne : validComparePairs notesPool step ≠ []) :
    pickCompareNotes notesPool (some step) g =
      .ok (shuffleInPlace
        [((validComparePairs notesPool step).getD
            (g 0 % (validComparePairs notesPool step).length)
            (undefinedNote, undefinedNote)).1,
         ((validComparePairs notesPool step).getD
            (g 0 % (validComparePairs notesPool step).length)
            (undefinedNote, undefinedNote)).2]
        (shiftStream g)) := by
  rw [pickCompareNotes_some,
    if_neg (by simp [List.isEmpty_iff, hne]),
    randomChoice_spec _ _ (undefinedNote, undefinedNote) hne]

/-- Claim C3: for a `compare_two` draw at level L5 (spacing 2) or L6
(spacing 1), whenever the pool has at least one unordered pair at exactly the
target spacing the selection (a) always succeeds and returns a pair at exactly
that spacing drawn from the valid-pair list, and (b) can return every valid
pair (the index into the valid-pair list is drawn uniformly); with no valid
pair it degrades to plain uniform sampling without replacement, so generation
never fails for lack of an exact-spacing pair. -/
theorem pickCompareNotes_L5L6 (level : String) (spacing : ℤ)
    (hlv : (level = "L5" ∧ spacing = 2) ∨ (level = "L6" ∧ spacing = 1))
    (notesPool : List SDNote) :
    (validComparePairs notesPool spacing ≠ [] →
      (∀ g, ∃ a b picked g',
        pickCompareNotes notesPool (intervalConstraintForLevel level) g =
          .ok (picked, g') ∧
        picked.Perm [a, b] ∧
        (a, b) ∈ validComparePairs notesPool spacing ∧
        (a, b) ∈ upairs notesPool ∧
        |a.semitone - b.semitone| = spacing) ∧
      (∀ p ∈ validComparePairs notesPool spacing, ∃ g picked g',
        pickCompareNotes notesPool (intervalConstraintForLevel level) g =
          .ok (picked, g') ∧ picked.Perm [p.1, p.2])) ∧
    (validComparePairs notesPool spacing = [] →
      ∀ g, pickCompareNotes notesPool (intervalConstraintForLevel level) g =
        sampleWithoutReplacement notesPool 2 g) := by
  have hconstraint : intervalConstraintForLevel level = some spacing := by
    rcases hlv with ⟨h1, h2⟩ | ⟨h1, h2⟩ <;> subst h1 <;> subst h2 <;> rfl
  rw [hconstraint]
  constructor
  · intro hne
    constructor
    · intro g
      have hlt : g 0 % (validComparePairs notesPool spacing).length <
          (validComparePairs notesPool spacing).length :=
        Nat.mod_lt _ (List.length_pos.mpr hne)
      set p := (validComparePairs notesPool spacing).getD
        (g 0 % (validComparePairs notesPool spacing).length)
        (undefinedNote, undefinedNote) with hp
      have hpmem : p ∈ validComparePairs notesPool spacing := by
        rw [hp, List.getD_eq_get _ _ hlt]
        exact List.get_mem _ _ _
      have hpool : (p.1, p.2) ∈ upairs notesPool ∧
          |p.1.semitone - p.2.semitone| = spacing := by
        have := List.mem_filter.mp hpmem
        constructor
        · simpa using this.1
        · simpa using of_decide_eq_true this.2
      refine ⟨p.1, p.2, (shuffleInPlace [p.1, p.2] (shiftStream g)).1,
        (shuffleInPlace [p.1, p.2] (shiftStream g)).2, ?_, ?_, ?_, hpool.1,
        hpool.2⟩
      · rw [pickCompareNotes_constrained notesPool spacing g hne]
      · exact shuffleInPlace_perm _ _
      · simpa using hpmem
    · intro p hpmem
      obtain ⟨⟨i, hi⟩, hget⟩ := List.mem_iff_get.mp hpmem
      refine ⟨fun _ => i, (shuffleInPlace [p.1, p.2] (shiftStream (fun _ => i))).1,
        (shuffleInPlace [p.1, p.2] (shiftStream (fun _ => i))).2, ?_, ?_⟩
      · have hne : validComparePairs notesPool spacing ≠ [] :=
          List.ne_nil_of_mem hpmem
        rw [pickCompareNotes_constrained notesPool spacing (fun _ => i) hne]
        have hidx : (fun _ => i : RandStream) 0 %
            (validComparePairs notesPool spacing).length = i :=
          Nat.mod_eq_of_lt hi
        rw [hidx, List.getD_eq_get _ _ hi, hget]
      · exact shuffleInPlace_perm _ _
  · intro hempty g
    rw [pickCompareNotes_some, if_pos (by simp [List.isEmpty_iff, hempty])]

end TonicEar

namespace TonicEar

/-- Witness for C3 at L5 on a two-note pool spaced exactly 2 semitones. -/
theorem pickCompareNotes_L5L6_witness :
    ∃ a b picked g',
      pickCompareNotes
        [⟨"1", "1", 1, "natural", 0, none, none⟩,
         ⟨"2", "2", 2, "natural", 2, none, none⟩]
        (intervalConstraintForLevel "L5") (fun _ => 0) = .ok (picked, g') ∧
      picked.Perm [a, b] ∧
      (a, b) ∈ validComparePairs
        [⟨"1", "1", 1, "natural", 0, none, none⟩,
         ⟨"2", "2", 2, "natural", 2, none, none⟩] 2 ∧
      (a, b) ∈ upairs
        [⟨"1", "1", 1, "natural", 0, none, none⟩,
         ⟨"2", "2", 2, "natural", 2, none, none⟩] ∧
      |a.semitone - b.semitone| = 2 :=
  ((pickCompareNotes_L5L6 "L5" 2 (Or.inl ⟨rfl, rfl⟩)
    [⟨"1", "1", 1, "natural", 0, none, none⟩,
     ⟨"2", "2", 2, "natural", 2, none, none⟩]).1 (by decide)).1 (fun _ => 0)

end TonicEar

namespace TonicEar

/-! ## Claim C4: sort questions -/

theorem lookupBySemitone_mem (notesPool : List SDNote) (s : ℤ) (note : SDNote)
    (h : lookupBySemitone notesPool s = some note) : note ∈ notesPool := by
  unfold lookupBySemitone at h
  exact List.mem_reverse.mp (List.mem_of_find?_eq_some h)

theorem pickSortNotes_some (notesPool : List SDNote) (noteCount : ℕ) (step : ℤ)
    (g : RandStream) :
    pickSortNotes notesPool noteCount (some step) g =
      if (validSortSequences notesPool noteCount step).isEmpty then
        sampleWithoutReplacement notesPool noteCount g
      else
        match randomChoice (validSortSequences notesPool noteCount step) g with
        | .error e => .error e
        | .ok (selected, g') =>
          .ok (shuffleInPlace
            (selected.map
              (fun s => (lookupBySemitone notesPool s).getD undefinedNote))
            g') := rfl

/-- `pickSortNotes` succeeds whenever the pool is large enough, returning
`noteCount` pool notes. -/
theorem pickSortNotes_ok (notesPool : List SDNote) (noteCount : ℕ)
    (step : Option ℤ) (g : RandStream) (h : noteCount ≤ notesPool.length) :
    ∃ picked g', pickSortNotes notesPool noteCount step g = .ok (picked, g') ∧
      picked.length = noteCount ∧ ∀ x ∈ picked, x ∈ notesPool := by
  match step with
  | none =>
    obtain ⟨picked, g', hs, hlen, hmem⟩ :=
      sampleWithoutReplacement_ok notesPool noteCount g h
    exact ⟨picked, g', hs, hlen, hmem⟩
  | some st =>
    rw [pickSortNotes_some]
    by_cases hempty : (validSortSequences notesPool noteCount st).isEmpty
    · rw [if_pos hempty]
      obtain ⟨picked, g', hs, hlen, hmem⟩ :=
        sampleWithoutReplacement_ok notesPool noteCount g h
      exact ⟨picked, g', hs, hlen, hmem⟩
    · rw [if_neg hempty]
      have hne : validSortSequences notesPool noteCount st ≠ [] := by
        intro hc
        exact hempty (by simp [hc])
      rw [randomChoice_spec _ _ [] hne]
      have hlt : g 0 % (validSortSequences notesPool noteCount st).length <
          (validSortSequences notesPool noteCount st).length :=
        Nat.mod_lt _ (List.length_pos.mpr hne)
      set selected := (validSortSequences notesPool noteCount st).getD
        (g 0 % (validSortSequences notesPool noteCount st).length) [] with hsel
      have hselmem : selected ∈ validSortSequences notesPool noteCount st := by
        rw [hsel, List.getD_eq_getElem _ _ hlt]
        exact List.getElem_mem hlt
      obtain ⟨start, hstart, hif⟩ := List.mem_filterMap.mp hselmem
      have hcase :
          selected = (List.range noteCount).map (fun (k : ℕ) => start + st * (k : ℤ)) ∧
          ∀ s ∈ (List.range noteCount).map (fun (k : ℕ) => start + st * (k : ℤ)),
            (lookupBySemitone notesPool s).isSome := by
        by_cases hall : ((List.range noteCount).map
            (fun (k : ℕ) => start + st * (k : ℤ))).all
              (fun s => (lookupBySemitone notesPool s).isSome)
        · rw [if_pos hall] at hif
          refine ⟨(Option.some_injective _ hif).symm, ?_⟩
          intro s hs
          exact List.all_eq_true.mp hall s hs
        · rw [if_neg hall] at hif
          exact absurd hif (by simp)
      refine ⟨(shuffleInPlace (selected.map
          (fun s => (lookupBySemitone notesPool s).getD undefinedNote))
          (shiftStream g)).1,
        (shuffleInPlace (selected.map
          (fun s => (lookupBySemitone notesPool s).getD undefinedNote))
          (shiftStream g)).2, rfl, ?_, ?_⟩
      · rw [shuffleInPlace_length, List.length_map, hcase.1]
        simp
      · intro x hx
        have hx' := (shuffleInPlace_perm _ _).mem_iff.mp hx
        obtain ⟨s, hsmem, hsx⟩ := List.mem_map.mp hx'
        have hsome : (lookupBySemitone notesPool s).isSome :=
          hcase.2 s (hcase.1 ▸ hsmem)
        obtain ⟨note, hnote⟩ := Option.isSome_iff_exists.mp hsome
        rw [hnote] at hsx
        simp only [Option.getD_some] at hsx
        rw [← hsx]
        exact lookupBySemitone_mem notesPool s note hnote

/-- `generateSortQuestion` succeeds whenever the pool is large enough, and its
fields are built from the picked notes. -/
theorem generateSortQuestion_ok (module : Module) (questionNumber : ℕ)
    (notesPool : List SDNote) (doFrequency : ℝ)
    (cb : Option (ℝ → Option MapCallbackResult)) (noteCount : ℕ)
    (g : RandStream) (h : noteCount ≤ notesPool.length) :
    ∃ picked q g',
      generateSortQuestion module questionNumber notesPool doFrequency
        EQUAL_TEMPERAMENT cb noteCount g = .ok (q, g') ∧
      picked.length = noteCount ∧ (∀ x ∈ picked, x ∈ notesPool) ∧
      q.id = questionId module questionNumber ∧
      q.type = module.questionType ∧
      q.notes = picked.map (finalPayload cb doFrequency) ∧
      q.visualHints = buildVisualHints picked ∧
      q.correctAnswer = .str (String.intercalate "-"
        (((List.range noteCount).mergeSort
          (fun l r => (picked.getD l undefinedNote).semitone ≤
                      (picked.getD r undefinedNote).semitone)).map
          (fun i => toString (i + 1)))) := by
  obtain ⟨picked, g', hpick, hlen, hmem⟩ :=
    pickSortNotes_ok notesPool noteCount (intervalConstraintForLevel module.level)
      g h
  have hgen : generateSortQuestion module questionNumber notesPool doFrequency
      EQUAL_TEMPERAMENT cb noteCount g =
      .ok (⟨questionId module questionNumber, module.questionType,
        picked.map (finalPayload cb doFrequency), buildVisualHints picked,
        .positions ((List.range noteCount).map (fun i => toString (i + 1)))
          "index_sequence",
        .str (String.intercalate "-"
          (((List.range noteCount).mergeSort
            (fun l r => (picked.getD l undefinedNote).semitone ≤
                        (picked.getD r undefinedNote).semitone)).map
            (fun i => toString (i + 1)))),
        "Listen to " ++ toString noteCount ++
          " notes. Sort from low to high."⟩, g') := by
    unfold generateSortQuestion
    simp only [hpick, buildNotePayloads_eq]
  exact ⟨picked, _, g', hgen, hlen, hmem, rfl, rfl, rfl, rfl, rfl⟩

end TonicEar

namespace TonicEar

/-- Claim C4: every sort question's `correctAnswer` is a hyphen-joined string
of 1-indexed positions forming a permutation of `1..N`, and reading the
question's (shuffled) notes in that order yields non-decreasing semitones. -/
theorem generateSortQuestion_correct (module : Module) (questionNumber : ℕ)
    (notesPool : List SDNote) (doFrequency : ℝ)
    (cb : Option (ℝ → Option MapCallbackResult)) (noteCount : ℕ)
    (hnc : noteCount = 3 ∨ noteCount = 4)
    (hpool : noteCount ≤ notesPool.length) (g : RandStream) :
    ∃ q g', generateSortQuestion module questionNumber notesPool doFrequency
        EQUAL_TEMPERAMENT cb noteCount g = .ok (q, g') ∧
      q.notes.length = noteCount ∧
      ∃ σ : List ℕ,
        q.correctAnswer = .str (String.intercalate "-"
          (σ.map (fun i => toString (i + 1)))) ∧
        (σ.map (fun i => i + 1)).Perm
          ((List.range noteCount).map (fun i => i + 1)) ∧
        List.Chain' (· ≤ ·)
          (σ.map (fun i => (q.notes.map (·.semitone)).getD i 0)) := by
  obtain ⟨picked, q, g', hgen, hlen, hmem, hid, htype, hnotes, hhints, hans⟩ :=
    generateSortQuestion_ok module questionNumber notesPool doFrequency cb
      noteCount g hpool
  set le : ℕ → ℕ → Bool := fun l r =>
    (picked.getD l undefinedNote).semitone ≤ (picked.getD r undefinedNote).semitone
    with hle
  set σ : List ℕ := (List.range noteCount).mergeSort le with hσ
  have hperm : σ.Perm (List.range noteCount) := List.mergeSort_perm _ _
  refine ⟨q, g', hgen, ?_, σ, hans, hperm.map _, ?_⟩
  · rw [hnotes, List.length_map, hlen]
  · have htrans : ∀ a b c, le a b = true → le b c = true → le a c = true := by
      intro a b c hab hbc
      rw [hle] at *
      simp only [decide_eq_true_eq] at *
      exact le_trans hab hbc
    have htotal : ∀ a b, (le a b || le b a) = true := by
      intro a b
      rw [hle]
      simp only [Bool.or_eq_true, decide_eq_true_eq]
      exact le_total _ _
    have hsorted := List.sorted_mergeSort htrans htotal (List.range noteCount)
    have hp2 : List.Pairwise (fun a b =>
        (picked.getD a undefinedNote).semitone ≤
        (picked.getD b undefinedNote).semitone) σ := by
      refine hsorted.imp ?_
      intro a b hab
      rw [hle] at hab
      exact of_decide_eq_true hab
    have hfun : ∀ i ∈ σ, (picked.getD i undefinedNote).semitone =
        (q.notes.map (·.semitone)).getD i 0 := by
      intro i hi
      have hiRange : i ∈ List.range noteCount := hperm.mem_iff.mp hi
      have hilt : i < picked.length := by
        rw [hlen]
        exact List.mem_range.mp hiRange
      have hq : q.notes.map (·.semitone) = picked.map (·.semitone) := by
        rw [hnotes, List.map_map]
        refine List.map_congr_left ?_
        intro n hn
        exact finalPayload_semitone cb doFrequency n
      rw [hq]
      have hilt2 : i < (picked.map (·.semitone)).length := by
        rw [List.length_map]
        exact hilt
      rw [List.getD_eq_getElem _ _ hilt, List.getD_eq_getElem _ _ hilt2,
        List.getElem_map]
    have hmapeq : σ.map (fun i => (picked.getD i undefinedNote).semitone) =
        σ.map (fun i => (q.notes.map (·.semitone)).getD i 0) :=
      List.map_congr_left hfun
    have := (List.pairwise_map.mpr hp2).chain'
    rw [hmapeq] at this
    exact this

end TonicEar

namespace TonicEar

/-- Witness for C4: a 3-note sort question over the triad pool. -/
theorem generateSortQuestion_correct_witness :
    ∃ q g', generateSortQuestion
        ⟨"M3-L1", "Three Notes: Sort Low to High (L1)", "sort_three", "L1", 7⟩ 1
        [⟨"1", "1", 1, "natural", 0, none, none⟩,
         ⟨"3", "3", 3, "natural", 4, none, none⟩,
         ⟨"5", "5", 5, "natural", 7, none, none⟩]
        130.8 EQUAL_TEMPERAMENT none 3 (fun _ => 0) = .ok (q, g') ∧
      q.notes.length = 3 ∧
      ∃ σ : List ℕ,
        q.correctAnswer = .str (String.intercalate "-"
          (σ.map (fun i => toString (i + 1)))) ∧
        (σ.map (fun i => i + 1)).Perm
          ((List.range 3).map (fun i => i + 1)) ∧
        List.Chain' (· ≤ ·)
          (σ.map (fun i => (q.notes.map (·.semitone)).getD i 0)) :=
  generateSortQuestion_correct
    ⟨"M3-L1", "Three Notes: Sort Low to High (L1)", "sort_three", "L1", 7⟩ 1
    [⟨"1", "1", 1, "natural", 0, none, none⟩,
     ⟨"3", "3", 3, "natural", 4, none, none⟩,
     ⟨"5", "5", 5, "natural", 7, none, none⟩]
    130.8 none 3 (Or.inl rfl) (le_refl 3) (fun _ => 0)

end TonicEar

namespace TonicEar

/-- Structure of a generated single-note question (shared helper). -/
theorem generateSingleNoteQuestion_ok (module : Module)
    (questionNumber : ℕ) (notesPool : List SDNote) (doFrequency : ℝ)
    (cb : Option (ℝ → Option MapCallbackResult)) (g : RandStream)
    (h : notesPool ≠ []) :
    ∃ q g' note, generateSingleNoteQuestion module questionNumber notesPool
        doFrequency EQUAL_TEMPERAMENT cb g = .ok (q, g') ∧
      note ∈ notesPool ∧
      q.id = questionId module questionNumber ∧
      q.notes = [finalPayload cb doFrequency note] ∧
      q.visualHints = [] ∧
      (∀ d a, note.enharmonicDegree = some d →
        note.enharmonicAccidental = some a →
        q.correctAnswer = .singleNote ⟨toString note.degree, note.accidental⟩
          (some [⟨toString d, a⟩])) ∧
      ((note.enharmonicDegree = none ∨ note.enharmonicAccidental = none) →
        q.correctAnswer = .singleNote ⟨toString note.degree, note.accidental⟩
          none) ∧
      (module.level = "L4" →
        q.choices = .singleNote ["1", "2", "3", "4", "5", "6", "7"]
          ["flat", "natural", "sharp"] true) ∧
      (module.level ≠ "L4" →
        q.choices = .singleNote ["1", "2", "3", "4", "5", "6", "7"]
          ["natural"] false) := by
  have hlen : notesPool.length ≠ 0 := by
    intro hc
    exact h (List.eq_nil_of_length_eq_zero hc)
  have hlt : g 0 % notesPool.length < notesPool.length :=
    Nat.mod_lt _ (Nat.pos_of_ne_zero hlen)
  set picked := notesPool.getD (g 0 % notesPool.length) undefinedNote
    with hpicked
  have hmem : picked ∈ notesPool := by
    rw [hpicked, List.getD_eq_getElem _ _ hlt]
    exact List.getElem_mem hlt
  have hgen : generateSingleNoteQuestion module questionNumber notesPool
      doFrequency EQUAL_TEMPERAMENT cb g =
      .ok (⟨questionId module questionNumber, module.questionType,
        [finalPayload cb doFrequency picked], [],
        .singleNote ["1", "2", "3", "4", "5", "6", "7"]
          (if module.level = "L4" then ["flat", "natural", "sharp"]
           else ["natural"])
          (module.level = "L4"),
        .singleNote ⟨toString picked.degree, picked.accidental⟩
          (match picked.enharmonicDegree, picked.enharmonicAccidental with
            | some d, some a => some [⟨toString d, a⟩]
            | _, _ => none),
        "Listen to one note. Choose the movable-do number."⟩, shiftStream g) := by
    unfold generateSingleNoteQuestion
    simp only [randomChoice_spec notesPool g undefinedNote h,
      buildNotePayloads_eq, List.map_cons, List.map_nil]
  refine ⟨_, _, picked, hgen, hmem, rfl, rfl, rfl, ?_, ?_, ?_, ?_⟩
  · intro d a hd ha
    simp only [hd, ha]
  · intro hnone
    rcases hnone with hd | ha
    · simp only [hd]
    · cases hdm : picked.enharmonicDegree <;> simp only [hdm, ha]
  · intro hl4
    simp only [hl4]
    rfl
  · intro hl4
    simp only [if_neg hl4]
    congr 1
    simp [hl4]

end TonicEar

namespace TonicEar

/-- Claim C5: a single-note question accepts the picked note's
`(degree, accidental)` pair, lists the enharmonic alternative as additionally
accepted exactly when the note has one, and offers accidental choices
`["natural"]` away from L4 and `["flat", "natural", "sharp"]` at L4. -/
theorem generateSingleNoteQuestion_correct (module : Module)
    (questionNumber : ℕ) (notesPool : List SDNote) (doFrequency : ℝ)
    (cb : Option (ℝ → Option MapCallbackResult)) (g : RandStream)
    (h : notesPool ≠ []) :
    ∃ q g' note, generateSingleNoteQuestion module questionNumber notesPool
        doFrequency EQUAL_TEMPERAMENT cb g = .ok (q, g') ∧
      note ∈ notesPool ∧
      q.notes = [finalPayload cb doFrequency note] ∧
      (∀ d a, note.enharmonicDegree = some d →
        note.enharmonicAccidental = some a →
        q.correctAnswer = .singleNote ⟨toString note.degree, note.accidental⟩
          (some [⟨toString d, a⟩])) ∧
      ((note.enharmonicDegree = none ∨ note.enharmonicAccidental = none) →
        q.correctAnswer = .singleNote ⟨toString note.degree, note.accidental⟩
          none) ∧
      (module.level = "L4" →
        q.choices = .singleNote ["1", "2", "3", "4", "5", "6", "7"]
          ["flat", "natural", "sharp"] true) ∧
      (module.level ≠ "L4" →
        q.choices = .singleNote ["1", "2", "3", "4", "5", "6", "7"]
          ["natural"] false) :=
  match generateSingleNoteQuestion_ok module questionNumber notesPool
    doFrequency cb g h with
  | ⟨q, g', note, hgen, hmem, _, hnotes, _, h1, h2, h3, h4⟩ =>
    ⟨q, g', note, hgen, hmem, hnotes, h1, h2, h3, h4⟩

end TonicEar

namespace TonicEar

/-- Witness for C5 at the L4 single-note module over a one-note pool holding
the enharmonic-capable sharp-4. -/
theorem generateSingleNoteQuestion_correct_witness :
    ∃ q g' note, generateSingleNoteQuestion
        ⟨"MS-L4", "Single Note Guess (L4)", "single_note", "L4", 25⟩ 1
        [⟨"#4", "#4/b5", 4, "sharp", 6, some 5, some "flat"⟩]
        130.8 EQUAL_TEMPERAMENT none (fun _ => 0) = .ok (q, g') ∧
      note ∈ [(⟨"#4", "#4/b5", 4, "sharp", 6, some 5, some "flat"⟩ : SDNote)] ∧
      q.notes = [finalPayload none 130.8 note] ∧
      (∀ d a, note.enharmonicDegree = some d →
        note.enharmonicAccidental = some a →
        q.correctAnswer = .singleNote ⟨toString note.degree, note.accidental⟩
          (some [⟨toString d, a⟩])) ∧
      ((note.enharmonicDegree = none ∨ note.enharmonicAccidental = none) →
        q.correctAnswer = .singleNote ⟨toString note.degree, note.accidental⟩
          none) ∧
      ((Module.mk "MS-L4" "Single Note Guess (L4)" "single_note" "L4" 25).level
          = "L4" →
        q.choices = .singleNote ["1", "2", "3", "4", "5", "6", "7"]
          ["flat", "natural", "sharp"] true) ∧
      ((Module.mk "MS-L4" "Single Note Guess (L4)" "single_note" "L4" 25).level
          ≠ "L4" →
        q.choices = .singleNote ["1", "2", "3", "4", "5", "6", "7"]
          ["natural"] false) :=
  generateSingleNoteQuestion_correct
    ⟨"MS-L4", "Single Note Guess (L4)", "single_note", "L4", 25⟩ 1
    [⟨"#4", "#4/b5", 4, "sharp", 6, some 5, some "flat"⟩]
    130.8 none (fun _ => 0) (List.cons_ne_nil _ _)

end TonicEar

namespace TonicEar

/-! ## Claim C9: visual-hint geometry -/

theorem zmin_spec : ∀ (l : List ℤ) (a : ℤ), l.min? = some a →
    a ∈ l ∧ ∀ b ∈ l, a ≤ b := by
  intro l
  induction l with
  | nil => intro a h; simp [List.min?] at h
  | cons x t ih =>
    intro a h
    rw [List.min?_cons] at h
    cases hm : t.min? with
    | none =>
      rw [hm] at h
      simp only [Option.elim_none, Option.some.injEq] at h
      have ht : t = [] := List.min?_eq_none_iff.mp hm
      subst ht
      subst h
      exact ⟨List.mem_singleton_self x, by simp⟩
    | some m =>
      rw [hm] at h
      simp only [Option.elim_some, Option.some.injEq] at h
      obtain ⟨hmmem, hmle⟩ := ih m hm
      subst h
      constructor
      · rcases min_choice x m with hc | hc
        · rw [hc]; exact List.mem_cons_self x t
        · rw [hc]; exact List.mem_cons_of_mem x hmmem
      · intro b hb
        rcases List.mem_cons.mp hb with rfl | hb'
        · exact min_le_left _ _
        · exact le_trans (min_le_right x m) (hmle b hb')

theorem zmax_spec : ∀ (l : List ℤ) (a : ℤ), l.max? = some a →
    a ∈ l ∧ ∀ b ∈ l, b ≤ a := by
  intro l
  induction l with
  | nil => intro a h; simp [List.max?] at h
  | cons x t ih =>
    intro a h
    rw [List.max?_cons] at h
    cases hm : t.max? with
    | none =>
      rw [hm] at h
      simp only [Option.elim_none, Option.some.injEq] at h
      have ht : t = [] := List.max?_eq_none_iff.mp hm
      subst ht
      subst h
      exact ⟨List.mem_singleton_self x, by simp⟩
    | some m =>
      rw [hm] at h
      simp only [Option.elim_some, Option.some.injEq] at h
      obtain ⟨hmmem, hmle⟩ := ih m hm
      subst h
      constructor
      · rcases max_choice x m with hc | hc
        · rw [hc]; exact List.mem_cons_self x t
        · rw [hc]; exact List.mem_cons_of_mem x hmmem
      · intro b hb
        rcases List.mem_cons.mp hb with rfl | hb'
        · exact le_max_left _ _
        · exact le_trans (hmle b hb') (le_max_right x m)

/-- The visual-hint heights follow the midpoint/band formula over the note
list's attained minimum and maximum semitone. -/
theorem buildVisualHints_spec (notes : List SDNote) (h : notes ≠ []) :
    ∃ mn mx,
      mn ∈ notes.map (·.semitone) ∧ (∀ s ∈ notes.map (·.semitone), mn ≤ s) ∧
      mx ∈ notes.map (·.semitone) ∧ (∀ s ∈ notes.map (·.semitone), s ≤ mx) ∧
      (buildVisualHints notes).length = notes.length ∧
      ∀ i, ∀ hi : i < notes.length,
        (buildVisualHints notes).getD i ⟨0, 0⟩ =
          if mx = mn then ⟨i + 1, 50⟩
          else ⟨i + 1, roundTo (10 +
            (((notes.get ⟨i, hi⟩).semitone - mn : ℤ) : ℝ) /
            ((mx - mn : ℤ) : ℝ) * 80) 2⟩ := by
  have hne : notes.map (·.semitone) ≠ [] := by
    intro hc
    exact h (List.map_eq_nil.mp hc)
  obtain ⟨s0, rest0, hcons⟩ : ∃ s0 rest0, notes.map (·.semitone) = s0 :: rest0 := by
    cases hm : notes.map (·.semitone) with
    | nil => exact absurd hm hne
    | cons a b => exact ⟨a, b, rfl⟩
  obtain ⟨mn, hmin⟩ : ∃ mn, (notes.map (·.semitone)).min? = some mn := by
    rw [hcons]
    exact ⟨_, List.min?_cons⟩
  obtain ⟨mx, hmax⟩ : ∃ mx, (notes.map (·.semitone)).max? = some mx := by
    rw [hcons]
    exact ⟨_, List.max?_cons⟩
  obtain ⟨hmnMem, hmnLe⟩ := zmin_spec _ _ hmin
  obtain ⟨hmxMem, hmxLe⟩ := zmax_spec _ _ hmax
  have hbody : buildVisualHints notes =
      match (notes.map (·.semitone)).min?, (notes.map (·.semitone)).max? with
      | some minSemitone, some maxSemitone =>
        if maxSemitone = minSemitone then
          notes.mapIdx (fun index _ => ⟨index + 1, 50⟩)
        else
          notes.mapIdx (fun index note =>
            ⟨index + 1, roundTo (10 +
              ((note.semitone - minSemitone : ℤ) : ℝ) /
              ((maxSemitone - minSemitone : ℤ) : ℝ) * 80) 2⟩)
      | _, _ => [] := rfl
  have hred : buildVisualHints notes =
      if mx = mn then notes.mapIdx (fun index _ => ⟨index + 1, 50⟩)
      else notes.mapIdx (fun index note =>
        ⟨index + 1, roundTo (10 +
          ((note.semitone - mn : ℤ) : ℝ) /
          ((mx - mn : ℤ) : ℝ) * 80) 2⟩) := by
    rw [hbody, hmin, hmax]
  refine ⟨mn, mx, hmnMem, hmnLe, hmxMem, hmxLe, ?_, ?_⟩
  · rw [hred]
    by_cases hc : mx = mn
    · rw [if_pos hc, List.length_mapIdx]
    · rw [if_neg hc, List.length_mapIdx]
  · intro i hi
    rw [hred]
    by_cases hc : mx = mn
    · rw [if_pos hc, if_pos hc]
      rw [List.getD_eq_getElem _ _ (by rw [List.length_mapIdx]; exact hi),
        List.getElem_mapIdx]
    · rw [if_neg hc, if_neg hc]
      rw [List.getD_eq_getElem _ _ (by rw [List.length_mapIdx]; exact hi),
        List.getElem_mapIdx]
      rfl

theorem upairs_mem {α : Type} : ∀ (l : List α) (p : α × α),
    p ∈ upairs l → p.1 ∈ l ∧ p.2 ∈ l := by
  intro l
  induction l with
  | nil => intro p hp; simp [upairs] at hp
  | cons x t ih =>
    intro p hp
    rcases List.mem_append.mp hp with hmap | hrec
    · obtain ⟨y, hy, hxy⟩ := List.mem_map.mp hmap
      subst hxy
      exact ⟨List.mem_cons_self x t, List.mem_cons_of_mem x hy⟩
    · obtain ⟨h1, h2⟩ := ih p hrec
      exact ⟨List.mem_cons_of_mem x h1, List.mem_cons_of_mem x h2⟩

/-- `pickCompareNotes` succeeds whenever the pool has at least two notes,
returning two pool notes. -/
theorem pickCompareNotes_ok (notesPool : List SDNote) (step : Option ℤ)
    (g : RandStream) (h : 2 ≤ notesPool.length) :
    ∃ picked g', pickCompareNotes notesPool step g = .ok (picked, g') ∧
      picked.length = 2 ∧ ∀ x ∈ picked, x ∈ notesPool := by
  match step with
  | none => exact sampleWithoutReplacement_ok notesPool 2 g h
  | some st =>
    by_cases hempty : (validComparePairs notesPool st).isEmpty
    · rw [pickCompareNotes_some, if_pos hempty]
      exact sampleWithoutReplacement_ok notesPool 2 g h
    · have hne : validComparePairs notesPool st ≠ [] := by
        intro hc
        exact hempty (by simp [hc])
      rw [pickCompareNotes_constrained notesPool st g hne]
      have hlt : g 0 % (validComparePairs notesPool st).length <
          (validComparePairs notesPool st).length :=
        Nat.mod_lt _ (List.length_pos.mpr hne)
      set p := (validComparePairs notesPool st).getD
        (g 0 % (validComparePairs notesPool st).length)
        (undefinedNote, undefinedNote) with hp
      have hpmem : p ∈ validComparePairs notesPool st := by
        rw [hp, List.getD_eq_getElem _ _ hlt]
        exact List.getElem_mem hlt
      have hpool : p.1 ∈ notesPool ∧ p.2 ∈ notesPool :=
        upairs_mem notesPool p (List.mem_filter.mp hpmem).1
      refine ⟨(shuffleInPlace [p.1, p.2] (shiftStream g)).1,
        (shuffleInPlace [p.1, p.2] (shiftStream g)).2, rfl, ?_, ?_⟩
      · rw [shuffleInPlace_length]
        rfl
      · intro x hx
        have := (shuffleInPlace_perm [p.1, p.2] (shiftStream g)).mem_iff.mp hx
        rcases List.mem_cons.mp this with rfl | h2
        · exact hpool.1
        · rcases List.mem_singleton.mp h2 with rfl
          exact hpool.2

end TonicEar

namespace TonicEar

/-- Structure of a generated compare question (shared helper). -/
theorem generateCompareQuestion_ok (module : Module) (questionNumber : ℕ)
    (notesPool : List SDNote) (doFrequency : ℝ)
    (cb : Option (ℝ → Option MapCallbackResult)) (g : RandStream)
    (h : 2 ≤ notesPool.length) :
    ∃ picked q g',
      generateCompareQuestion module questionNumber notesPool doFrequency
        EQUAL_TEMPERAMENT cb g = .ok (q, g') ∧
      picked.length = 2 ∧ (∀ x ∈ picked, x ∈ notesPool) ∧
      q.id = questionId module questionNumber ∧
      q.type = module.questionType ∧
      q.notes = picked.map (finalPayload cb doFrequency) ∧
      q.visualHints = buildVisualHints picked ∧
      (q.correctAnswer = .str "first_higher" ∨
       q.correctAnswer = .str "second_higher") := by
  obtain ⟨picked, g', hpick, hlen, hmem⟩ :=
    pickCompareNotes_ok notesPool (intervalConstraintForLevel module.level) g h
  have hgen : generateCompareQuestion module questionNumber notesPool
      doFrequency EQUAL_TEMPERAMENT cb g =
      .ok (⟨questionId module questionNumber, module.questionType,
        picked.map (finalPayload cb doFrequency), buildVisualHints picked,
        .options [("first_higher", "First note is higher"),
                  ("second_higher", "Second note is higher")],
        .str (if (picked.getD 0 undefinedNote).semitone >
                (picked.getD 1 undefinedNote).semitone
              then "first_higher" else "second_higher"),
        "Listen to two notes. Which one is higher?"⟩, g') := by
    unfold generateCompareQuestion
    simp only [hpick, buildNotePayloads_eq]
  refine ⟨picked, _, g', hgen, hlen, hmem, rfl, rfl, rfl, rfl, ?_⟩
  by_cases hc : (picked.getD 0 undefinedNote).semitone >
      (picked.getD 1 undefinedNote).semitone
  · left
    rw [if_pos hc]
  · right
    rw [if_neg hc]

/-- Structure of a generated interval question (shared helper). -/
theorem generateIntervalQuestion_ok (module : Module) (questionNumber : ℕ)
    (notesPool : List SDNote) (doFrequency : ℝ)
    (cb : Option (ℝ → Option MapCallbackResult)) (g : RandStream)
    (h : 2 ≤ notesPool.length) :
    ∃ picked q g',
      generateIntervalQuestion module questionNumber notesPool doFrequency
        EQUAL_TEMPERAMENT cb g = .ok (q, g') ∧
      picked.length = 2 ∧ (∀ x ∈ picked, x ∈ notesPool) ∧
      q.id = questionId module questionNumber ∧
      q.type = module.questionType ∧
      q.notes = picked.map (finalPayload cb doFrequency) ∧
      q.visualHints = buildVisualHints picked ∧
      q.correctAnswer = .str (toString
        ((((picked.getD 0 undefinedNote).degree : ℤ) -
          ((picked.getD 1 undefinedNote).degree : ℤ)).natAbs)) := by
  obtain ⟨picked, g', hpick, hlen, hmem⟩ :=
    sampleWithoutReplacement_ok notesPool 2 g h
  have hgen : generateIntervalQuestion module questionNumber notesPool
      doFrequency EQUAL_TEMPERAMENT cb g =
      .ok (⟨questionId module questionNumber, module.questionType,
        picked.map (finalPayload cb doFrequency), buildVisualHints picked,
        .strs ((getPossibleIntervalDistances notesPool).map toString),
        .str (toString
          ((((picked.getD 0 undefinedNote).degree : ℤ) -
            ((picked.getD 1 undefinedNote).degree : ℤ)).natAbs)),
        "How many scale steps apart are these two notes?"⟩, g') := by
    unfold generateIntervalQuestion
    simp only [hpick, buildNotePayloads_eq]
  exact ⟨picked, _, g', hgen, hlen, hmem, rfl, rfl, rfl, rfl, rfl⟩

end TonicEar

namespace TonicEar

/-- Counterexample to C9 as stated: a generated `single_note` question has a
(non-empty) note list but an empty `visualHints` list, so no per-note vertical
hint position is computed for it. -/
theorem generateQuestion_visualHints_counterexample :
    ∃ q g', generateSingleNoteQuestion
        ⟨"MS-L1", "Single Note Guess (L1)", "single_note", "L1", 22⟩ 1
        [⟨"1", "1", 1, "natural", 0, none, none⟩]
        130.8 EQUAL_TEMPERAMENT none (fun _ => 0) = .ok (q, g') ∧
      q.notes.length = 1 ∧ q.visualHints = [] := by
  obtain ⟨q, g', note, hgen, hmem, _, hnotes, hhints, h1, h2, h3, h4⟩ :=
    generateSingleNoteQuestion_ok
      ⟨"MS-L1", "Single Note Guess (L1)", "single_note", "L1", 22⟩ 1
      [⟨"1", "1", 1, "natural", 0, none, none⟩]
      130.8 none (fun _ => 0) (List.cons_ne_nil _ _)
  refine ⟨q, g', hgen, ?_, hhints⟩
  rw [hnotes]
  rfl

theorem generateQuestion_eq_compare (module : Module) (questionNumber : ℕ)
    (notesPool : List SDNote) (doFrequency : ℝ) (temperament : String)
    (cb : Option (ℝ → Option MapCallbackResult)) (g : RandStream)
    (ht : module.questionType = "compare_two") :
    generateQuestion module questionNumber notesPool doFrequency temperament
      cb g = generateCompareQuestion module questionNumber notesPool
        doFrequency temperament cb g := by
  unfold generateQuestion
  rw [if_pos ht]

theorem generateQuestion_eq_sort3 (module : Module) (questionNumber : ℕ)
    (notesPool : List SDNote) (doFrequency : ℝ) (temperament : String)
    (cb : Option (ℝ → Option MapCallbackResult)) (g : RandStream)
    (ht : module.questionType = "sort_three") :
    generateQuestion module questionNumber notesPool doFrequency temperament
      cb g = generateSortQuestion module questionNumber notesPool
        doFrequency temperament cb 3 g := by
  unfold generateQuestion
  rw [if_neg (by rw [ht]; decide), if_pos ht]

theorem generateQuestion_eq_sort4 (module : Module) (questionNumber : ℕ)
    (notesPool : List SDNote) (doFrequency : ℝ) (temperament : String)
    (cb : Option (ℝ → Option MapCallbackResult)) (g : RandStream)
    (ht : module.questionType = "sort_four") :
    generateQuestion module questionNumber notesPool doFrequency temperament
      cb g = generateSortQuestion module questionNumber notesPool
        doFrequency temperament cb 4 g := by
  unfold generateQuestion
  rw [if_neg (by rw [ht]; decide), if_neg (by rw [ht]; decide), if_pos ht]

theorem generateQuestion_eq_interval (module : Module) (questionNumber : ℕ)
    (notesPool : List SDNote) (doFrequency : ℝ) (temperament : String)
    (cb : Option (ℝ → Option MapCallbackResult)) (g : RandStream)
    (ht : module.questionType = "interval_scale") :
    generateQuestion module questionNumber notesPool doFrequency temperament
      cb g = generateIntervalQuestion module questionNumber notesPool
        doFrequency temperament cb g := by
  unfold generateQuestion
  rw [if_neg (by rw [ht]; decide), if_neg (by rw [ht]; decide),
    if_neg (by rw [ht]; decide), if_pos ht]

theorem generateQuestion_eq_single (module : Module) (questionNumber : ℕ)
    (notesPool : List SDNote) (doFrequency : ℝ) (temperament : String)
    (cb : Option (ℝ → Option MapCallbackResult)) (g : RandStream)
    (ht : module.questionType = "single_note") :
    generateQuestion module questionNumber notesPool doFrequency temperament
      cb g = generateSingleNoteQuestion module questionNumber notesPool
        doFrequency temperament cb g := by
  unfold generateQuestion
  rw [if_neg (by rw [ht]; decide), if_neg (by rw [ht]; decide),
    if_neg (by rw [ht]; decide), if_neg (by rw [ht]; decide), if_pos ht]

end TonicEar

namespace TonicEar

/-- Transport of `buildVisualHints_spec` to a generated question whose hints
were built from its picked notes (shared helper). -/
theorem questionHints_spec (picked : List SDNote) (q : Question)
    (cb : Option (ℝ → Option MapCallbackResult)) (doFrequency : ℝ)
    (hne : picked ≠ [])
    (hnotes : q.notes = picked.map (finalPayload cb doFrequency))
    (hhints : q.visualHints = buildVisualHints picked) :
    picked ≠ [] ∧
    q.notes = picked.map (finalPayload cb doFrequency) ∧
    q.notes.map (·.semitone) = picked.map (·.semitone) ∧
    q.visualHints = buildVisualHints picked ∧
    ∃ mn mx,
      mn ∈ picked.map (·.semitone) ∧ (∀ s ∈ picked.map (·.semitone), mn ≤ s) ∧
      mx ∈ picked.map (·.semitone) ∧ (∀ s ∈ picked.map (·.semitone), s ≤ mx) ∧
      q.visualHints.length = picked.length ∧
      ∀ i, ∀ hi : i < picked.length,
        q.visualHints.getD i ⟨0, 0⟩ =
          if mx = mn then ⟨i + 1, 50⟩
          else ⟨i + 1, roundTo (10 +
            (((picked.get ⟨i, hi⟩).semitone - mn : ℤ) : ℝ) /
            ((mx - mn : ℤ) : ℝ) * 80) 2⟩ := by
  obtain ⟨mn, mx, h1, h2, h3, h4, hlen, hpt⟩ := buildVisualHints_spec picked hne
  refine ⟨hne, hnotes, ?_, hhints, mn, mx, h1, h2, h3, h4, ?_, ?_⟩
  · rw [hnotes, List.map_map]
    refine List.map_congr_left ?_
    intro n hn
    exact finalPayload_semitone cb doFrequency n
  · rw [hhints]
    exact hlen
  · intro i hi
    rw [hhints]
    exact hpt i hi

/-- Claim C9 (amended): for every generated question other than
`single_note` — whose `visualHints` list is empty — a normalized vertical
hint position is computed per note: all heights are the midpoint 50 when all
semitones agree, else `roundTo(10 + 80*(s - min)/(max - min), 2)`; being a
pure function of the picked notes, the result is deterministic given the
note set. -/
theorem generateQuestion_visualHints (module : Module) (questionNumber : ℕ)
    (notesPool : List SDNote) (doFrequency : ℝ)
    (cb : Option (ℝ → Option MapCallbackResult)) (g : RandStream)
    (hcase : (module.questionType = "compare_two" ∧ 2 ≤ notesPool.length) ∨
      (module.questionType = "sort_three" ∧ 3 ≤ notesPool.length) ∨
      (module.questionType = "sort_four" ∧ 4 ≤ notesPool.length) ∨
      (module.questionType = "interval_scale" ∧ 2 ≤ notesPool.length) ∨
      (module.questionType = "single_note" ∧ 1 ≤ notesPool.length)) :
    ∃ q g', generateQuestion module questionNumber notesPool doFrequency
        EQUAL_TEMPERAMENT cb g = .ok (q, g') ∧
      (module.questionType = "single_note" →
        q.notes.length = 1 ∧ q.visualHints = []) ∧
      (module.questionType ≠ "single_note" → ∃ picked : List SDNote,
        picked ≠ [] ∧
        q.notes = picked.map (finalPayload cb doFrequency) ∧
        q.notes.map (·.semitone) = picked.map (·.semitone) ∧
        q.visualHints = buildVisualHints picked ∧
        ∃ mn mx,
          mn ∈ picked.map (·.semitone) ∧
          (∀ s ∈ picked.map (·.semitone), mn ≤ s) ∧
          mx ∈ picked.map (·.semitone) ∧
          (∀ s ∈ picked.map (·.semitone), s ≤ mx) ∧
          q.visualHints.length = picked.length ∧
          ∀ i, ∀ hi : i < picked.length,
            q.visualHints.getD i ⟨0, 0⟩ =
              if mx = mn then ⟨i + 1, 50⟩
              else ⟨i + 1, roundTo (10 +
                (((picked.get ⟨i, hi⟩).semitone - mn : ℤ) : ℝ) /
                ((mx - mn : ℤ) : ℝ) * 80) 2⟩) := by
  rcases hcase with ⟨ht, hn⟩ | ⟨ht, hn⟩ | ⟨ht, hn⟩ | ⟨ht, hn⟩ | ⟨ht, hn⟩
  · obtain ⟨picked, q, g', hgen, hlen, hmem, hid, htq, hnotes, hhints, hans⟩ :=
      generateCompareQuestion_ok module questionNumber notesPool doFrequency
        cb g hn
    refine ⟨q, g', ?_, ?_, ?_⟩
    · rw [generateQuestion_eq_compare _ _ _ _ _ _ _ ht]
      exact hgen
    · intro hsn
      rw [ht] at hsn
      exact absurd hsn (by decide)
    · intro _
      refine ⟨picked, questionHints_spec picked q cb doFrequency ?_ hnotes hhints⟩
      intro hc
      rw [hc] at hlen
      exact absurd hlen.symm (by decide)
  · obtain ⟨picked, q, g', hgen, hlen, hmem, hid, htq, hnotes, hhints, hans⟩ :=
      generateSortQuestion_ok module questionNumber notesPool doFrequency cb 3
        g hn
    refine ⟨q, g', ?_, ?_, ?_⟩
    · rw [generateQuestion_eq_sort3 _ _ _ _ _ _ _ ht]
      exact hgen
    · intro hsn
      rw [ht] at hsn
      exact absurd hsn (by decide)
    · intro _
      refine ⟨picked, questionHints_spec picked q cb doFrequency ?_ hnotes hhints⟩
      intro hc
      rw [hc] at hlen
      exact absurd hlen.symm (by decide)
  · obtain ⟨picked, q, g', hgen, hlen, hmem, hid, htq, hnotes, hhints, hans⟩ :=
      generateSortQuestion_ok module questionNumber notesPool doFrequency cb 4
        g hn
    refine ⟨q, g', ?_, ?_, ?_⟩
    · rw [generateQuestion_eq_sort4 _ _ _ _ _ _ _ ht]
      exact hgen
    · intro hsn
      rw [ht] at hsn
      exact absurd hsn (by decide)
    · intro _
      refine ⟨picked, questionHints_spec picked q cb doFrequency ?_ hnotes hhints⟩
      intro hc
      rw [hc] at hlen
      exact absurd hlen.symm (by decide)
  · obtain ⟨picked, q, g', hgen, hlen, hmem, hid, htq, hnotes, hhints, hans⟩ :=
      generateIntervalQuestion_ok module questionNumber notesPool doFrequency
        cb g hn
    refine ⟨q, g', ?_, ?_, ?_⟩
    · rw [generateQuestion_eq_interval _ _ _ _ _ _ _ ht]
      exact hgen
    · intro hsn
      rw [ht] at hsn
      exact absurd hsn (by decide)
    · intro _
      refine ⟨picked, questionHints_spec picked q cb doFrequency ?_ hnotes hhints⟩
      intro hc
      rw [hc] at hlen
      exact absurd hlen.symm (by decide)
  · obtain ⟨q, g', note, hgen, hmem, _, hnotes, hhints, h1, h2, h3, h4⟩ :=
      generateSingleNoteQuestion_ok module questionNumber notesPool doFrequency
        cb g (by intro hc; rw [hc] at hn; exact absurd hn (by decide))
    refine ⟨q, g', ?_, ?_, ?_⟩
    · rw [generateQuestion_eq_single _ _ _ _ _ _ _ ht]
      exact hgen
    · intro _
      refine ⟨?_, hhints⟩
      rw [hnotes]
      rfl
    · intro hne'
      exact absurd ht hne'

end TonicEar

namespace TonicEar

/-- Witness for the amended C9 at a compare module over a 4-note pool. -/
theorem generateQuestion_visualHints_witness :
    ∃ q g', generateQuestion
        ⟨"M2-L1", "Two Notes: Higher or Lower (L1)", "compare_two", "L1", 1⟩ 1
        [⟨"1", "1", 1, "natural", 0, none, none⟩,
         ⟨"2", "2", 2, "natural", 2, none, none⟩,
         ⟨"3", "3", 3, "natural", 4, none, none⟩,
         ⟨"5", "5", 5, "natural", 7, none, none⟩]
        130.8 EQUAL_TEMPERAMENT none (fun _ => 0) = .ok (q, g') ∧
      ((Module.mk "M2-L1" "Two Notes: Higher or Lower (L1)" "compare_two"
          "L1" 1).questionType = "single_note" →
        q.notes.length = 1 ∧ q.visualHints = []) ∧
      ((Module.mk "M2-L1" "Two Notes: Higher or Lower (L1)" "compare_two"
          "L1" 1).questionType ≠ "single_note" → ∃ picked : List SDNote,
        picked ≠ [] ∧
        q.notes = picked.map (finalPayload none 130.8) ∧
        q.notes.map (·.semitone) = picked.map (·.semitone) ∧
        q.visualHints = buildVisualHints picked ∧
        ∃ mn mx,
          mn ∈ picked.map (·.semitone) ∧
          (∀ s ∈ picked.map (·.semitone), mn ≤ s) ∧
          mx ∈ picked.map (·.semitone) ∧
          (∀ s ∈ picked.map (·.semitone), s ≤ mx) ∧
          q.visualHints.length = picked.length ∧
          ∀ i, ∀ hi : i < picked.length,
            q.visualHints.getD i ⟨0, 0⟩ =
              if mx = mn then ⟨i + 1, 50⟩
              else ⟨i + 1, roundTo (10 +
                (((picked.get ⟨i, hi⟩).semitone - mn : ℤ) : ℝ) /
                ((mx - mn : ℤ) : ℝ) * 80) 2⟩) :=
  generateQuestion_visualHints
    ⟨"M2-L1", "Two Notes: Higher or Lower (L1)", "compare_two", "L1", 1⟩ 1
    [⟨"1", "1", 1, "natural", 0, none, none⟩,
     ⟨"2", "2", 2, "natural", 2, none, none⟩,
     ⟨"3", "3", 3, "natural", 4, none, none⟩,
     ⟨"5", "5", 5, "natural", 7, none, none⟩]
    130.8 none (fun _ => 0) (Or.inl ⟨rfl, by decide⟩)

end TonicEar

namespace TonicEar

/-! ## Claim C1 and C8: session assembly -/

/-- The question loop: with a per-question success invariant `P`, the loop
yields `count` questions with consecutively numbered ids, all satisfying
`P`. -/
theorem generateQuestions_ok (module : Module) (notesPool : List SDNote)
    (doFrequency : ℝ) (temperament : String)
    (cb : Option (ℝ → Option MapCallbackResult)) (P : Question → Prop)
    (hstep : ∀ num g, ∃ q g',
      generateQuestion module num notesPool doFrequency temperament cb g =
        .ok (q, g') ∧ q.id = questionId module num ∧ P q) :
    ∀ count firstNumber g, ∃ qs g',
      generateQuestions module notesPool doFrequency temperament cb
        firstNumber count g = .ok (qs, g') ∧
      qs.map (·.id) =
        (List.range count).map (fun i => questionId module (firstNumber + i)) ∧
      ∀ q ∈ qs, P q := by
  intro count
  induction count with
  | zero => intro firstNumber g; exact ⟨[], g, rfl, rfl, by simp⟩
  | succ n ih =>
    intro firstNumber g
    obtain ⟨q, g₁, hq, hid, hP⟩ := hstep firstNumber g
    obtain ⟨qs, g₂, hqs, hids, hPs⟩ := ih (firstNumber + 1) g₁
    refine ⟨q :: qs, g₂, ?_, ?_, ?_⟩
    · simp only [generateQuestions, hq, hqs]
    · rw [List.map_cons, hid, hids, List.range_succ_eq_map, List.map_cons,
        List.map_map]
      congr 1
      refine List.map_congr_left ?_
      intro i hi
      show questionId module (firstNumber + 1 + i) =
        questionId module (firstNumber + (i + 1))
      congr 1
      omega
    · intro q' hq'
      rcases List.mem_cons.mp hq' with rfl | hq''
      · exact hP
      · exact hPs q' hq''

theorem calculateDoFrequency_ok (gender key : String)
    (hg : genderKnown gender = true) (hk : (keyOffset key).isSome) :
    ∃ doFrequency, calculateDoFrequency gender key = .ok doFrequency := by
  unfold calculateDoFrequency
  rw [if_neg (by simp [hg])]
  obtain ⟨off, hoff⟩ := Option.isSome_iff_exists.mp hk
  rw [hoff]
  have hgender : gender = "male" ∨ gender = "female" := by
    have := of_decide_eq_true hg
    exact this
  rcases hgender with rfl | rfl
  · exact ⟨_, rfl⟩
  · exact ⟨_, rfl⟩

theorem validateInput_ok (moduleId gender key temperament instrument : String)
    (hmod : (moduleById moduleId).isSome)
    (hg : genderKnown gender = true)
    (hk : (keyOffset key).isSome)
    (ht : temperament = EQUAL_TEMPERAMENT)
    (hi : INSTRUMENT_OPTIONS.any (fun item => item.1 = instrument) = true) :
    validateInput moduleId gender key temperament instrument = .ok () := by
  unfold validateInput
  rw [if_neg (by simp [Option.isNone_iff_eq_none]; exact
      Option.isSome_iff_ne_none.mp hmod),
    if_neg (by simp [hg]),
    if_neg (by simp [Option.isNone_iff_eq_none]; exact
      Option.isSome_iff_ne_none.mp hk),
    if_neg (by simp [ht]),
    if_neg (by simp [hi])]

end TonicEar

namespace TonicEar

/-- Unfolding of a fully successful `generateSession` run (shared helper). -/
theorem generateSession_unfold (options : SessionOptions) (sessionId : String)
    (g : RandStream) (module : Module)
    (hmod : moduleById options.moduleId = some module)
    (hg : genderKnown options.gender = true)
    (hk : (keyOffset options.key).isSome)
    (ht : options.temperament = EQUAL_TEMPERAMENT)
    (hi : INSTRUMENT_OPTIONS.any
      (fun item => item.1 = resolveInstrument options.instrument) = true)
    (notesPool : List SDNote)
    (hpool : getNotePool (resolveNotePoolLevel module) = .ok notesPool)
    (doFrequency : ℝ)
    (hdoF : calculateDoFrequency options.gender options.key = .ok doFrequency)
    (questions : List Question) (g' : RandStream)
    (hqs : generateQuestions module notesPool doFrequency options.temperament
      options.mapTargetFrequency 1 QUESTION_COUNT g = .ok (questions, g')) :
    generateSession options sessionId g = .ok
      ⟨sessionId,
       ⟨options.moduleId, module.title, module.level,
        resolveNotePoolLevel module, module.questionType, options.gender,
        options.key, options.temperament,
        resolveInstrument options.instrument, QUESTION_COUNT,
        roundTo doFrequency 4⟩,
       questions⟩ := by
  have hval := validateInput_ok options.moduleId options.gender options.key
    options.temperament (resolveInstrument options.instrument)
    (by rw [hmod]; rfl) hg hk ht hi
  unfold generateSession
  simp only [hval, hmod, hpool, hdoF, hqs]

end TonicEar

namespace TonicEar

set_option maxRecDepth 8192

/-- Catalog audit: every module resolves its note pool, the pool is large
enough for its question type, and the question type is one of the five
supported ones. -/
theorem modules_pools_ok : ∀ m ∈ MODULES, ∃ notesPool,
    getNotePool (resolveNotePoolLevel m) = .ok notesPool ∧
    ((m.questionType = "compare_two" ∧ 2 ≤ notesPool.length) ∨
     (m.questionType = "sort_three" ∧ 3 ≤ notesPool.length) ∨
     (m.questionType = "sort_four" ∧ 4 ≤ notesPool.length) ∨
     (m.questionType = "interval_scale" ∧ 2 ≤ notesPool.length) ∨
     (m.questionType = "single_note" ∧ 1 ≤ notesPool.length)) := by
  have hbool : MODULES.all (fun m =>
      match getNotePool (resolveNotePoolLevel m) with
      | .ok notesPool =>
        (decide (m.questionType = "compare_two") && decide (2 ≤ notesPool.length)) ||
        (decide (m.questionType = "sort_three") && decide (3 ≤ notesPool.length)) ||
        (decide (m.questionType = "sort_four") && decide (4 ≤ notesPool.length)) ||
        (decide (m.questionType = "interval_scale") && decide (2 ≤ notesPool.length)) ||
        (decide (m.questionType = "single_note") && decide (1 ≤ notesPool.length))
      | .error _ => false) = true := by decide
  intro m hm
  have hme := List.all_eq_true.mp hbool m hm
  cases hp : getNotePool (resolveNotePoolLevel m) with
  | error e => rw [hp] at hme; exact absurd hme (by simp)
  | ok notesPool =>
    rw [hp] at hme
    refine ⟨notesPool, rfl, ?_⟩
    simp only [Bool.or_eq_true, Bool.and_eq_true, decide_eq_true_eq] at hme
    tauto

end TonicEar

namespace TonicEar

/-- Every supported module question type generates successfully, given its
pool-size requirement (shared helper). -/
theorem generateQuestion_ok_forModule (module : Module)
    (notesPool : List SDNote) (doFrequency : ℝ)
    (cb : Option (ℝ → Option MapCallbackResult))
    (hcase : (module.questionType = "compare_two" ∧ 2 ≤ notesPool.length) ∨
      (module.questionType = "sort_three" ∧ 3 ≤ notesPool.length) ∨
      (module.questionType = "sort_four" ∧ 4 ≤ notesPool.length) ∨
      (module.questionType = "interval_scale" ∧ 2 ≤ notesPool.length) ∨
      (module.questionType = "single_note" ∧ 1 ≤ notesPool.length)) :
    ∀ num g, ∃ q g',
      generateQuestion module num notesPool doFrequency EQUAL_TEMPERAMENT cb g =
        .ok (q, g') ∧ q.id = questionId module num := by
  intro num g
  rcases hcase with ⟨ht, hn⟩ | ⟨ht, hn⟩ | ⟨ht, hn⟩ | ⟨ht, hn⟩ | ⟨ht, hn⟩
  · obtain ⟨picked, q, g', hgen, _, _, hid, _⟩ :=
      generateCompareQuestion_ok module num notesPool doFrequency cb g hn
    exact ⟨q, g', by
      rw [generateQuestion_eq_compare _ _ _ _ _ _ _ ht]; exact hgen, hid⟩
  · obtain ⟨picked, q, g', hgen, _, _, hid, _⟩ :=
      generateSortQuestion_ok module num notesPool doFrequency cb 3 g hn
    exact ⟨q, g', by
      rw [generateQuestion_eq_sort3 _ _ _ _ _ _ _ ht]; exact hgen, hid⟩
  · obtain ⟨picked, q, g', hgen, _, _, hid, _⟩ :=
      generateSortQuestion_ok module num notesPool doFrequency cb 4 g hn
    exact ⟨q, g', by
      rw [generateQuestion_eq_sort4 _ _ _ _ _ _ _ ht]; exact hgen, hid⟩
  · obtain ⟨picked, q, g', hgen, _, _, hid, _⟩ :=
      generateIntervalQuestion_ok module num notesPool doFrequency cb g hn
    exact ⟨q, g', by
      rw [generateQuestion_eq_interval _ _ _ _ _ _ _ ht]; exact hgen, hid⟩
  · have hne : notesPool ≠ [] := by
      intro hc
      rw [hc] at hn
      exact absurd hn (by decide)
    obtain ⟨q, g', note, hgen, _, hid, _, _, _, _, _, _⟩ :=
      generateSingleNoteQuestion_ok module num notesPool doFrequency cb g hne
    exact ⟨q, g', by
      rw [generateQuestion_eq_single _ _ _ _ _ _ _ ht]; exact hgen, hid⟩

/-- The twenty question ids of one session are pairwise distinct. -/
theorem questionIds_nodup (module : Module) :
    ((List.range QUESTION_COUNT).map
      (fun i => questionId module (1 + i))).Nodup := by
  have hbase : ((List.range QUESTION_COUNT).map
      (fun i => toString (1 + i))).Nodup := by decide
  have heq : (List.range QUESTION_COUNT).map (fun i => questionId module (1 + i)) =
      ((List.range QUESTION_COUNT).map (fun i => toString (1 + i))).map
        (fun s => module.id ++ "-Q" ++ s) := by
    rw [List.map_map]
    rfl
  rw [heq]
  refine List.Nodup.map ?_ hbase
  intro x y hxy
  apply String.ext
  have hd := congrArg String.data hxy
  simp only [String.data_append] at hd
  exact List.append_cancel_left hd

end TonicEar

namespace TonicEar

/-- A fully valid request yields a session of `QUESTION_COUNT` questions with
consecutive ids, every question satisfying the step invariant `P` (shared
helper). -/
theorem generateSession_ok_P (options : SessionOptions) (sessionId : String)
    (g : RandStream) (module : Module) (notesPool : List SDNote)
    (doFrequency : ℝ)
    (hmod : moduleById options.moduleId = some module)
    (hg : genderKnown options.gender = true)
    (hk : (keyOffset options.key).isSome)
    (ht : options.temperament = EQUAL_TEMPERAMENT)
    (hi : INSTRUMENT_OPTIONS.any
      (fun item => item.1 = resolveInstrument options.instrument) = true)
    (hpool : getNotePool (resolveNotePoolLevel module) = .ok notesPool)
    (hdoF : calculateDoFrequency options.gender options.key = .ok doFrequency)
    (P : Question → Prop)
    (hstep : ∀ num g, ∃ q g', generateQuestion module num notesPool doFrequency
      EQUAL_TEMPERAMENT options.mapTargetFrequency g = .ok (q, g') ∧
      q.id = questionId module num ∧ P q) :
    ∃ s, generateSession options sessionId g = .ok s ∧
      s.settings.doFrequency = roundTo doFrequency 4 ∧
      s.questions.length = QUESTION_COUNT ∧
      (s.questions.map (·.id)).Nodup ∧
      ∀ q ∈ s.questions, P q := by
  obtain ⟨qs, g', hqs, hids, hPs⟩ := generateQuestions_ok module notesPool
    doFrequency EQUAL_TEMPERAMENT options.mapTargetFrequency P hstep
    QUESTION_COUNT 1 g
  have hqs' : generateQuestions module notesPool doFrequency
      options.temperament options.mapTargetFrequency 1 QUESTION_COUNT g =
      .ok (qs, g') := by
    rw [ht]
    exact hqs
  have hsession := generateSession_unfold options sessionId g module hmod hg hk
    ht hi notesPool hpool doFrequency hdoF qs g' hqs'
  refine ⟨_, hsession, rfl, ?_, ?_, hPs⟩
  · have := congrArg List.length hids
    simpa using this
  · rw [hids]
    exact questionIds_nodup module

/-- An invalid request makes `validateInput` fail with a validation error
(shared helper). -/
theorem validateInput_error (moduleId gender key temperament instrument : String)
    (hinvalid : ¬ ((moduleById moduleId).isSome ∧
      genderKnown gender = true ∧
      (keyOffset key).isSome ∧
      temperament = EQUAL_TEMPERAMENT ∧
      INSTRUMENT_OPTIONS.any (fun item => item.1 = instrument) = true)) :
    ∃ e, validateInput moduleId gender key temperament instrument =
        .error e ∧
      ((∃ x, e = .unknownModule x) ∨ (∃ x, e = .unknownGender x) ∨
       (∃ x, e = .unknownKey x) ∨ (∃ x, e = .unknownTemperament x) ∨
       (∃ x, e = .unknownInstrument x)) := by
  by_cases h1 : (moduleById moduleId).isNone
  · refine ⟨.unknownModule moduleId, ?_, Or.inl ⟨_, rfl⟩⟩
    unfold validateInput
    rw [if_pos h1]
  · have h1' : (moduleById moduleId).isSome := by
      rcases Option.isNone_iff_eq_none.not.mp h1 with h
      cases hm : moduleById moduleId with
      | none => exact absurd hm h
      | some m => rfl
    by_cases h2 : ¬ genderKnown gender
    · refine ⟨.unknownGender gender, ?_, Or.inr (Or.inl ⟨_, rfl⟩)⟩
      unfold validateInput
      rw [if_neg h1, if_pos h2]
    · have h2' : genderKnown gender = true := not_not.mp h2
      by_cases h3 : (keyOffset key).isNone
      · refine ⟨.unknownKey key, ?_, Or.inr (Or.inr (Or.inl ⟨_, rfl⟩))⟩
        unfold validateInput
        rw [if_neg h1, if_neg h2, if_pos h3]
      · have h3' : (keyOffset key).isSome := by
          cases hm : keyOffset key with
          | none => exact absurd (by rw [hm]; rfl) h3
          | some m => rfl
        by_cases h4 : temperament ≠ EQUAL_TEMPERAMENT
        · refine ⟨.unknownTemperament temperament, ?_,
            Or.inr (Or.inr (Or.inr (Or.inl ⟨_, rfl⟩)))⟩
          unfold validateInput
          rw [if_neg h1, if_neg h2, if_neg h3, if_pos h4]
        · have h4' : temperament = EQUAL_TEMPERAMENT := not_not.mp h4
          by_cases h5 : ¬ INSTRUMENT_OPTIONS.any (fun item => item.1 = instrument)
          · refine ⟨.unknownInstrument instrument, ?_,
              Or.inr (Or.inr (Or.inr (Or.inr ⟨_, rfl⟩)))⟩
            unfold validateInput
            rw [if_neg h1, if_neg h2, if_neg h3, if_neg h4, if_pos h5]
          · have h5' : INSTRUMENT_OPTIONS.any
                (fun item => item.1 = instrument) = true := not_not.mp h5
            exact absurd ⟨h1', h2', h3', h4', h5'⟩ hinvalid

end TonicEar

namespace TonicEar

/-- Claim C1 (amended): a call with any of moduleId, gender, key, temperament
out of catalog, or with a provided non-empty instrument id out of catalog,
fails with a validation error and returns no session; an absent or empty
instrument falls back to `"piano"` (the `options.instrument || "piano"`
defaulting). Otherwise a session is returned holding exactly
`QUESTION_COUNT = 20` questions whose ids are pairwise distinct. -/
theorem generateSession_spec (options : SessionOptions) (sessionId : String)
    (g : RandStream) :
    (((moduleById options.moduleId).isSome ∧
      genderKnown options.gender = true ∧
      (keyOffset options.key).isSome ∧
      options.temperament = EQUAL_TEMPERAMENT ∧
      INSTRUMENT_OPTIONS.any
        (fun item => item.1 = resolveInstrument options.instrument) = true) →
      ∃ s, generateSession options sessionId g = .ok s ∧
        s.questions.length = QUESTION_COUNT ∧
        (s.questions.map (·.id)).Nodup) ∧
    (¬ ((moduleById options.moduleId).isSome ∧
      genderKnown options.gender = true ∧
      (keyOffset options.key).isSome ∧
      options.temperament = EQUAL_TEMPERAMENT ∧
      INSTRUMENT_OPTIONS.any
        (fun item => item.1 = resolveInstrument options.instrument) = true) →
      ∃ e, generateSession options sessionId g = .error e ∧
        ((∃ x, e = .unknownModule x) ∨ (∃ x, e = .unknownGender x) ∨
         (∃ x, e = .unknownKey x) ∨ (∃ x, e = .unknownTemperament x) ∨
         (∃ x, e = .unknownInstrument x))) := by
  constructor
  · rintro ⟨h1, h2, h3, h4, h5⟩
    obtain ⟨module, hmod⟩ := Option.isSome_iff_exists.mp h1
    have hmod' : MODULES.find? (fun m => m.id = options.moduleId) = some module :=
      hmod
    have hmem : module ∈ MODULES := List.mem_of_find?_eq_some hmod'
    obtain ⟨notesPool, hpool, hcase⟩ := modules_pools_ok module hmem
    obtain ⟨doF, hdoF⟩ := calculateDoFrequency_ok options.gender options.key h2 h3
    have hstep0 := generateQuestion_ok_forModule module notesPool doF
      options.mapTargetFrequency hcase
    obtain ⟨s, hs, _, hlen, hnodup, _⟩ := generateSession_ok_P options sessionId
      g module notesPool doF hmod h2 h3 h4 h5 hpool hdoF (fun _ => True)
      (by
        intro num g0
        obtain ⟨q, g', ha, hb⟩ := hstep0 num g0
        exact ⟨q, g', ha, hb, trivial⟩)
    exact ⟨s, hs, hlen, hnodup⟩
  · intro hinv
    obtain ⟨e, hval, hkind⟩ := validateInput_error options.moduleId
      options.gender options.key options.temperament
      (resolveInstrument options.instrument) hinv
    refine ⟨e, ?_, hkind⟩
    unfold generateSession
    simp only [hval]

end TonicEar

namespace TonicEar

/-- Counterexample to C1 as stated: the instrument `""` is not in the
instrument catalog, yet `generateSession` succeeds, because
`options.instrument || "piano"` replaces the falsy empty string by `"piano"`
before validation. -/
theorem generateSession_emptyInstrument_counterexample :
    (¬ INSTRUMENT_OPTIONS.any (fun item => item.1 = "") = true) ∧
    ∃ s, generateSession
      ⟨"M2-L1", "male", "C", "equal_temperament", some "", none⟩ "session-1"
      (fun _ => 0) = .ok s := by
  constructor
  · decide
  · have hdoF : calculateDoFrequency "male" "C" =
        .ok (MALE_DO_C * (2 : ℝ) ^ (((0 : ℕ) : ℝ) / 12)) := rfl
    have hstep := generateQuestion_ok_forModule
      ⟨"M2-L1", "Two Notes: Higher or Lower (L1)", "compare_two", "L1", 1⟩
      [⟨"1", "1", 1, "natural", 0, none, none⟩,
       ⟨"3", "3", 3, "natural", 4, none, none⟩,
       ⟨"5", "5", 5, "natural", 7, none, none⟩]
      (MALE_DO_C * (2 : ℝ) ^ (((0 : ℕ) : ℝ) / 12)) none
      (Or.inl ⟨rfl, by decide⟩)
    obtain ⟨s, hs, _, _, _, _⟩ := generateSession_ok_P
      ⟨"M2-L1", "male", "C", "equal_temperament", some "", none⟩ "session-1"
      (fun _ => 0)
      ⟨"M2-L1", "Two Notes: Higher or Lower (L1)", "compare_two", "L1", 1⟩
      [⟨"1", "1", 1, "natural", 0, none, none⟩,
       ⟨"3", "3", 3, "natural", 4, none, none⟩,
       ⟨"5", "5", 5, "natural", 7, none, none⟩]
      (MALE_DO_C * (2 : ℝ) ^ (((0 : ℕ) : ℝ) / 12))
      (by decide) (by decide) (by decide) rfl (by decide) rfl hdoF
      (fun _ => True)
      (by
        intro num g0
        obtain ⟨q, g', ha, hb⟩ := hstep num g0
        exact ⟨q, g', ha, hb, trivial⟩)
    exact ⟨s, hs⟩

/-- Witness for the amended C1 at a fully valid request. -/
theorem generateSession_spec_witness :
    ∃ s, generateSession
        ⟨"M2-L1", "male", "C", "equal_temperament", some "piano", none⟩
        "session-1" (fun _ => 0) = .ok s ∧
      s.questions.length = QUESTION_COUNT ∧
      (s.questions.map (·.id)).Nodup :=
  (generateSession_spec
    ⟨"M2-L1", "male", "C", "equal_temperament", some "piano", none⟩
    "session-1" (fun _ => 0)).1
    (by refine ⟨?_, ?_, ?_, rfl, ?_⟩ <;> decide)

end TonicEar

namespace TonicEar

/-! ## Claim C8: the M2-L1 end-to-end example -/

theorem doFrequency_maleC : MALE_DO_C * (2 : ℝ) ^ (((0 : ℕ) : ℝ) / 12) = 130.8 := by
  rw [show (((0 : ℕ) : ℝ) / 12 : ℝ) = 0 by norm_num, Real.rpow_zero, mul_one]
  rfl

theorem roundTo_130_8 : roundTo 130.8 4 = 130.8 := by
  unfold roundTo
  rw [show (130.8 : ℝ) * 10 ^ 4 = ((1308000 : ℤ) : ℝ) by norm_num,
    round_intCast]
  norm_num

theorem roundTo_token1 : roundTo (130.8 * (2 : ℝ) ^ (((0 : ℤ) : ℝ) / 12)) 4 = 130.8 := by
  rw [show ((((0 : ℤ) : ℝ)) / 12 : ℝ) = 0 by norm_num, Real.rpow_zero, mul_one]
  exact roundTo_130_8

/-- The code's frequency for token "3" at `doFrequency = 130.8`:
`roundTo(130.8 * 2^(4/12), 4) = 164.7977`. -/
theorem roundTo_token3 : roundTo (130.8 * (2 : ℝ) ^ (((4 : ℤ) : ℝ) / 12)) 4 = 164.7977 := by
  rw [show ((((4 : ℤ) : ℝ)) / 12 : ℝ) = (1 : ℝ) / 3 by norm_num]
  set c := (2 : ℝ) ^ ((1 : ℝ) / 3) with hc
  have hcpos : 0 < c := Real.rpow_pos_of_pos (by norm_num) _
  have hc3 : c ^ (3 : ℕ) = 2 := by
    rw [hc, ← Real.rpow_natCast ((2 : ℝ) ^ ((1 : ℝ) / 3)) 3,
      ← Real.rpow_mul (by norm_num : (0 : ℝ) ≤ 2)]
    norm_num
  have hlow : (1647976.5 : ℝ) / 1308000 < c := by
    by_contra hcon
    push_neg at hcon
    have h3 : c ^ (3 : ℕ) ≤ ((1647976.5 : ℝ) / 1308000) ^ (3 : ℕ) :=
      pow_le_pow_left hcpos.le hcon 3
    rw [hc3] at h3
    norm_num at h3
  have hhigh : c < (1647977.5 : ℝ) / 1308000 := by
    by_contra hcon
    push_neg at hcon
    have h3 : ((1647977.5 : ℝ) / 1308000) ^ (3 : ℕ) ≤ c ^ (3 : ℕ) :=
      pow_le_pow_left (by norm_num) hcon 3
    rw [hc3] at h3
    norm_num at h3
  unfold roundTo
  have hround : round ((130.8 * c) * 10 ^ 4) = 1647977 := by
    rw [round_eq, show (130.8 * c) * 10 ^ 4 = 1308000 * c by ring,
      Int.floor_eq_iff]
    constructor
    · push_cast
      nlinarith [hlow]
    · push_cast
      nlinarith [hhigh]
  rw [hround]
  norm_num

end TonicEar

namespace TonicEar

/-- Counterexample to C8 as stated: at `doFrequency = 130.8` the code's
rounded frequency for token "3" is `164.7977`, not the claimed `≈ 164.7434`
(`130.8 * 2^(4/12) = 164.79767...`). -/
theorem generateSession_M2L1_token3_counterexample :
    noteFrequency 4 130.8 EQUAL_TEMPERAMENT =
      .ok (130.8 * (2 : ℝ) ^ (((4 : ℤ) : ℝ) / 12)) ∧
    roundTo (130.8 * (2 : ℝ) ^ (((4 : ℤ) : ℝ) / 12)) 4 = 164.7977 ∧
    (164.7977 : ℝ) ≠ 164.7434 := by
  refine ⟨?_, roundTo_token3, by norm_num⟩
  simp [noteFrequency]

/-- Claim C8 (amended): every session generated for module "M2-L1" with
gender "male", key "C" and equal temperament draws both note tokens of every
question from `{"1","3","5"}`; the session's `doFrequency` is 130.8; a note
with token "1" has frequency 130.8000 and a note with token "3" has frequency
`roundTo(130.8 * 2^(4/12), 4) = 164.7977`. -/
theorem generateSession_M2L1_example (sessionId : String) (g : RandStream) :
    ∃ s, generateSession
        ⟨"M2-L1", "male", "C", "equal_temperament", none, none⟩
        sessionId g = .ok s ∧
      s.settings.doFrequency = 130.8 ∧
      ∀ q ∈ s.questions, q.notes.length = 2 ∧ ∀ p ∈ q.notes,
        (p.token = "1" ∨ p.token = "3" ∨ p.token = "5") ∧
        (p.token = "1" → p.frequency = 130.8) ∧
        (p.token = "3" → p.frequency = 164.7977) := by
  have hdoF : calculateDoFrequency "male" "C" =
      .ok (MALE_DO_C * (2 : ℝ) ^ (((0 : ℕ) : ℝ) / 12)) := rfl
  have hstep : ∀ num g0, ∃ q g',
      generateQuestion
        ⟨"M2-L1", "Two Notes: Higher or Lower (L1)", "compare_two", "L1", 1⟩
        num
        [⟨"1", "1", 1, "natural", 0, none, none⟩,
         ⟨"3", "3", 3, "natural", 4, none, none⟩,
         ⟨"5", "5", 5, "natural", 7, none, none⟩]
        (MALE_DO_C * (2 : ℝ) ^ (((0 : ℕ) : ℝ) / 12)) EQUAL_TEMPERAMENT none g0 =
        .ok (q, g') ∧
      q.id = questionId
        ⟨"M2-L1", "Two Notes: Higher or Lower (L1)", "compare_two", "L1", 1⟩
        num ∧
      (q.notes.length = 2 ∧ ∀ p ∈ q.notes,
        (p.token = "1" ∨ p.token = "3" ∨ p.token = "5") ∧
        (p.token = "1" → p.frequency = 130.8) ∧
        (p.token = "3" → p.frequency = 164.7977)) := by
    intro num g0
    obtain ⟨picked, q, g', hgen, hlen, hmem, hid, _, hnotes, _, _⟩ :=
      generateCompareQuestion_ok
        ⟨"M2-L1", "Two Notes: Higher or Lower (L1)", "compare_two", "L1", 1⟩
        num
        [⟨"1", "1", 1, "natural", 0, none, none⟩,
         ⟨"3", "3", 3, "natural", 4, none, none⟩,
         ⟨"5", "5", 5, "natural", 7, none, none⟩]
        (MALE_DO_C * (2 : ℝ) ^ (((0 : ℕ) : ℝ) / 12)) none g0 (by decide)
    refine ⟨q, g', ?_, hid, ?_, ?_⟩
    · rw [generateQuestion_eq_compare _ _ _ _ _ _ _ rfl]
      exact hgen
    · rw [hnotes, List.length_map, hlen]
    · intro p hp
      rw [hnotes] at hp
      obtain ⟨n, hn, hpn⟩ := List.mem_map.mp hp
      have hnp := hmem n hn
      subst hpn
      have hfreq := finalPayload_frequency none
        (MALE_DO_C * (2 : ℝ) ^ (((0 : ℕ) : ℝ) / 12)) n
      have htok := finalPayload_token none
        (MALE_DO_C * (2 : ℝ) ^ (((0 : ℕ) : ℝ) / 12)) n
      simp only [List.mem_cons, List.not_mem_nil, or_false] at hnp
      rcases hnp with rfl | rfl | rfl
      · refine ⟨Or.inl htok, fun _ => ?_, fun hc => ?_⟩
        · rw [hfreq, doFrequency_maleC]
          exact roundTo_token1
        · rw [htok] at hc
          exact absurd hc (by decide)
      · refine ⟨Or.inr (Or.inl htok), fun hc => ?_, fun _ => ?_⟩
        · rw [htok] at hc
          exact absurd hc (by decide)
        · rw [hfreq, doFrequency_maleC]
          exact roundTo_token3
      · refine ⟨Or.inr (Or.inr htok), fun hc => ?_, fun hc => ?_⟩
        · rw [htok] at hc
          exact absurd hc (by decide)
        · rw [htok] at hc
          exact absurd hc (by decide)
  obtain ⟨s, hs, hset, hlen, hnodup, hP⟩ := generateSession_ok_P
    ⟨"M2-L1", "male", "C", "equal_temperament", none, none⟩ sessionId g
    ⟨"M2-L1", "Two Notes: Higher or Lower (L1)", "compare_two", "L1", 1⟩
    [⟨"1", "1", 1, "natural", 0, none, none⟩,
     ⟨"3", "3", 3, "natural", 4, none, none⟩,
     ⟨"5", "5", 5, "natural", 7, none, none⟩]
    (MALE_DO_C * (2 : ℝ) ^ (((0 : ℕ) : ℝ) / 12))
    (by decide) (by decide) (by decide) rfl (by decide) rfl hdoF _ hstep
  refine ⟨s, hs, ?_, hP⟩
  rw [hset, doFrequency_maleC]
  exact roundTo_130_8

end TonicEar

namespace TonicEar

/-- Witness for the amended C8 at a concrete session id and draw stream. -/
theorem generateSession_M2L1_example_witness :
    ∃ s, generateSession
        ⟨"M2-L1", "male", "C", "equal_temperament", none, none⟩
        "session-1" (fun _ => 0) = .ok s ∧
      s.settings.doFrequency = 130.8 ∧
      ∀ q ∈ s.questions, q.notes.length = 2 ∧ ∀ p ∈ q.notes,
        (p.token = "1" ∨ p.token = "3" ∨ p.token = "5") ∧
        (p.token = "1" → p.frequency = 130.8) ∧
        (p.token = "3" → p.frequency = 164.7977) :=
  generateSession_M2L1_example "session-1" (fun _ => 0)

end TonicEar
